import Mathlib

/-!
Verification development for the OSC "Lampiran G" reference-normalization and
classification engine (`src/app.py`).

The Python source is shallowly embedded: every definition below mirrors one
function (or constant table) of `src/app.py`, operating on `List Char` /
`String` values.  Python `str` methods and the regular expressions used by the
source are translated into explicit recursive scanners with the same
leftmost-match semantics.  Python `set` values are modelled as duplicate-free
`List String` values (only membership, intersection and cardinality are used
by the source).  `str.upper$/$str.lower` are modelled on ASCII letters, which
covers the whole fixed vocabulary of the program.

Theorems about the claims C1..C10 are at the end of the file.
-/

set_option maxHeartbeats 1000000

/-! ## Character primitives -/

/-- ASCII whitespace class: the characters matched by Python's `\s` (and
stripped by `str.strip()`) on the inputs handled by the program. -/
def isWS (c : Char) : Bool :=
  c.toNat == 32 || c.toNat == 9 || c.toNat == 10 || c.toNat == 13 ||
  c.toNat == 11 || c.toNat == 12

/-- The separator class removed by `osc_norm`: dash, slash, backslash, round
and square and curly brackets, plus, dot, comma, colon, semicolon. -/
def isSepOsc (c : Char) : Bool :=
  c.toNat == 45 || c.toNat == 47 || c.toNat == 92 || c.toNat == 40 ||
  c.toNat == 41 || c.toNat == 91 || c.toNat == 93 || c.toNat == 123 ||
  c.toNat == 125 || c.toNat == 43 || c.toNat == 46 || c.toNat == 44 ||
  c.toNat == 58 || c.toNat == 59

/-- The separator class of the `re.split` in `extract_codes`: whitespace,
plus, dash, slash, backslash, round brackets, comma. -/
def isSepCode (c : Char) : Bool :=
  isWS c || c.toNat == 43 || c.toNat == 45 || c.toNat == 47 ||
  c.toNat == 92 || c.toNat == 40 || c.toNat == 41 || c.toNat == 44

def isDigitC (c : Char) : Bool := 48 ≤ c.toNat && c.toNat ≤ 57

def isUpperC (c : Char) : Bool := 65 ≤ c.toNat && c.toNat ≤ 90

def isLowerC (c : Char) : Bool := 97 ≤ c.toNat && c.toNat ≤ 122

/-- Python `\w` (word character) on ASCII: letters, digits, underscore. -/
def isWordC (c : Char) : Bool := isDigitC c || isUpperC c || isLowerC c || c.toNat == 95

/-- ASCII model of Python `str.upper` on one character. -/
def charUp (c : Char) : Char :=
  if 97 ≤ c.toNat ∧ c.toNat ≤ 122 then Char.ofNat (c.toNat - 32) else c

/-- ASCII model of Python `str.lower` on one character. -/
def charLow (c : Char) : Char :=
  if 65 ≤ c.toNat ∧ c.toNat ≤ 90 then Char.ofNat (c.toNat + 32) else c

def upperL (l : List Char) : List Char := l.map charUp

def lowerL (l : List Char) : List Char := l.map charLow

/-! ## List/string utilities -/

def dropWhileEnd (p : Char → Bool) (l : List Char) : List Char :=
  (l.reverse.dropWhile p).reverse

/-- Python `str.strip()`. -/
def pyStrip (l : List Char) : List Char := dropWhileEnd isWS (l.dropWhile isWS)

/-- Remove every whitespace character (`re.sub(r"[\s\r\n\t]+", "", s)`). -/
def removeWS (l : List Char) : List Char := l.filter (fun c => !isWS c)

def isPref : List Char → List Char → Bool
  | [], _ => true
  | _ :: _, [] => false
  | p :: ps, c :: cs => p == c && isPref ps cs

/-- Case-insensitive prefix test (both sides compared after `charUp`). -/
def isPrefCI (p l : List Char) : Bool := isPref (upperL p) (upperL l)

/-- Substring containment (Python `needle in s`). -/
def containsSub (p : List Char) : List Char → Bool
  | [] => isPref p []
  | c :: cs => isPref p (c :: cs) || containsSub p cs

/-- First-occurrence deduplication (Python `set` construction order /
the `dedup` helpers in the source). -/
def dedupAux (seen : List String) : List String → List String
  | [] => []
  | x :: xs => if seen.contains x then dedupAux seen xs else x :: dedupAux (x :: seen) xs

def dedupFirst (l : List String) : List String := dedupAux [] l

/-- Intersection of two string lists (Python `set & set`), keeping the order
of the first list.  Applied to duplicate-free lists its length is the size of
the set intersection. -/
def interL (a b : List String) : List String := a.filter (fun x => b.contains x)

/-- String-list membership as the source's `in` tests. -/
def memL (x : String) (l : List String) : Bool := l.contains x

/-! ## Identifier normalizer (`normalize_osc_prefix`, `osc_norm`) -/

/-- Matcher for the anchored pattern `^(MBPS|MPSP)` (case-insensitive):
returns the rest after the matched prefix. -/
def matchMBPSorMPSP (l : List Char) : Option (List Char) :=
  if isPrefCI "MBPS".data l then some (l.drop 4)
  else if isPrefCI "MPSP".data l then some (l.drop 4)
  else none

/-- Consume one optional literal dot. -/
def optDot : List Char → List Char
  | '.' :: r => r
  | r => r

/-- Consume one expected letter case-insensitively. -/
def expectCI (c : Char) : List Char → Option (List Char)
  | [] => none
  | x :: r => if charUp x == charUp c then some r else none

/-- Matcher for `^M\.?B\.?S\.?P` (case-insensitive). -/
def matchDotted3 (a b c d : Char) (l : List Char) : Option (List Char) := do
  let r1 ← expectCI a l
  let r2 ← expectCI b (optDot r1)
  let r3 ← expectCI c (optDot r2)
  expectCI d (optDot r3)

/-- The three anchored legacy-prefix substitutions shared by
`normalize_osc_prefix` and `format_fail_no_display` (case-insensitive,
rewriting `MBPS|MPSP`, dotted `M.B.S.P`, dotted `M.B.P.S` to `MBSP`). -/
def legacyPrefSubs (l : List Char) : List Char :=
  let l := match matchMBPSorMPSP l with
           | some r => "MBSP".data ++ r
           | none => l
  let l := match matchDotted3 'M' 'B' 'S' 'P' l with
           | some r => "MBSP".data ++ r
           | none => l
  match matchDotted3 'M' 'B' 'P' 'S' l with
  | some r => "MBSP".data ++ r
  | none => l

/-- `normalize_osc_prefix` (source line 271): strip, remove all whitespace,
rewrite the three legacy prefixes to `MBSP`, upcase. -/
def normalize_osc_pref (s : String) : String :=
  String.mk (upperL (legacyPrefSubs (removeWS (pyStrip s.data))))

/-- `osc_norm` (source line 359): the canonical matching key. -/
def osc_norm (s : String) : String :=
  let l := (normalize_osc_pref s).data
  let l := lowerL l
  let l := removeWS l
  String.mk (l.filter (fun c => !isSepOsc c))

/-! ## Blank-ish text and decision-cell tests -/

/-- `is_blankish_text` (source line 209).  The `None`/NaN branches of the
source concern non-string spreadsheet cells; the embedding covers the string
case. -/
def is_blankish_text (v : String) : Bool :=
  let t := pyStrip v.data
  if t.isEmpty then true
  else if ["-", "—", "–", "n/a", "na", "nil", "tiada"].contains (String.mk (lowerL t)) then true
  else if t.all (fun c => isWS c || c == '-' || c == '–' || c == '—') then true
  else false

/-- `keputusan_is_empty` (source line 367).  The source ends with
`if parse_date_from_cell(s) is not None: return False` followed by
`return False`: both branches return `False`, so any text that is not one of
the placeholder forms is a non-empty decision. -/
def keputusan_is_empty (v : String) : Bool :=
  let t := pyStrip v.data
  if t.isEmpty then true
  else if ["-", "tiada", "nil", "n/a", "na", "—", "–"].contains (String.mk (lowerL t)) then true
  else if t.all (fun c => isWS c || c == '-' || c == '–' || c == '—') then true
  else false

/-! ## Display formatter (`format_fail_no_display`) -/

/-- `str.replace("\r", "\n")`. -/
def crToNl (l : List Char) : List Char :=
  l.map (fun c => if c == '\r' then '\n' else c)

/-- `re.sub(r"[ \t]+", " ", s)`: collapse space/tab runs to one space.
The boolean tracks whether we are inside such a run. -/
def stAux (inRun : Bool) : List Char → List Char
  | [] => []
  | c :: r =>
    if c == ' ' || c == '\t' then
      (if inRun then stAux true r else ' ' :: stAux true r)
    else c :: stAux false r

/-- Collapse runs of three or more newlines to exactly two
(`re.sub(r"\n[newline-count-3-or-more]", "\n\n", s)`); the counter is the number of
newlines already emitted in the current run. -/
def nlAux (k : Nat) : List Char → List Char
  | [] => []
  | c :: r =>
    if c == '\n' then (if 2 ≤ k then nlAux k r else '\n' :: nlAux (k + 1) r)
    else c :: nlAux 0 r

/-- Forward pass deleting whitespace that immediately follows the target
character; composed with itself on the reversed list it deletes all
whitespace adjacent to the target, which is what the source's
whitespace-star target whitespace-star substitutions do. -/
def delAfterAux (t : Char) (flag : Bool) : List Char → List Char
  | [] => []
  | c :: r =>
    if isWS c then (if flag then delAfterAux t true r else c :: delAfterAux t false r)
    else c :: delAfterAux t (c == t) r

/-- Delete all whitespace adjacent to the character `t`. -/
def delWSAdj (t : Char) (l : List Char) : List Char :=
  (delAfterAux t false (delAfterAux t false l).reverse).reverse

/-- The source's plus substitution replaces every `+` together with its
adjacent whitespace by a space-padded `+`. -/
def plusStage (l : List Char) : List Char :=
  (delWSAdj '+' l).flatMap (fun c => if c == '+' then " + ".data else [c])

/-- `re.sub(r" [space-count-2-or-more]", " ", s)`: collapse runs of spaces. -/
def sp2Aux (inRun : Bool) : List Char → List Char
  | [] => []
  | c :: r =>
    if c == ' ' then (if inRun then sp2Aux true r else ' ' :: sp2Aux true r)
    else c :: sp2Aux false r

/-- `format_fail_no_display` (source line 283): full display reference,
prefix-normalized, with whitespace tidied and nothing else removed. -/
def format_fail_no_display (v : String) : String :=
  if is_blankish_text v then "" else
  let l := pyStrip v.data
  let l := legacyPrefSubs l
  let l := crToNl l
  let l := stAux false l
  let l := pyStrip (nlAux 0 l)
  let l := delWSAdj '/' l
  let l := delWSAdj '-' l
  let l := plusStage l
  let l := pyStrip (sp2Aux false l)
  String.mk l

/-! ## Sheets and code vocabulary -/

/-- `KNOWN_CODES` (source line 65). -/
def KNOWN_CODES : List String :=
  ["PKM", "TKR-GUNA", "TKR", "124A", "204D", "PS", "SB", "CT",
   "KTUP", "LJUP", "JP", "PL",
   "BGN", "EVCB", "EV", "TELCO"]

/-- `PB_CODES` (source line 71). -/
def PB_CODES : List String := ["PKM", "TKR-GUNA", "TKR", "124A", "204D", "PS", "SB", "CT"]

/-- `KEJ_CODES` (source line 72). -/
def KEJ_CODES : List String := ["KTUP", "LJUP", "JP"]

/-- `JL_CODES` (source line 73). -/
def JL_CODES : List String := ["PL"]

/-- `AGENDA_FILTER_SHEETS` (source line 51). -/
def AGENDA_FILTER_SHEETS : List String :=
  ["SERENTAK", "PKM", "TKR-GUNA", "PKM TUKARGUNA", "BGN", "TELCO", "EVCB", "BGN EVCB", "EV"]

/-- `UT_ALLOWED_SHEETS` (source line 76). -/
def UT_ALLOWED_SHEETS : List String :=
  ["SERENTAK", "PKM", "BGN", "BGN EVCB", "TKR-GUNA", "PKM TUKARGUNA", "TKR"]

/-- `SERENTAK_UT_ALLOWED_INDUK` (source line 77). -/
def SERENTAK_UT_ALLOWED_INDUK : List String := ["PB", "PKM", "BGN"]

/-- `DAERAH_ORDER` rank lookup with the `.get(..., 9)` default used by the
sort keys (source lines 63 and 1763). -/
def daerahRank (d : String) : Nat :=
  if d = "SPU" then 0 else if d = "SPS" then 1 else if d = "SPT" then 2 else 9

/-- Collapse every whitespace run to a single space (`re.sub(r"\s+", " ", s)`). -/
def wsRunAux (inRun : Bool) : List Char → List Char
  | [] => []
  | c :: r =>
    if isWS c then (if inRun then wsRunAux true r else ' ' :: wsRunAux true r)
    else c :: wsRunAux false r

/-- `sheet_norm` (source line 313). -/
def sheet_norm (s : String) : String :=
  String.mk (upperL (wsRunAux false (pyStrip s.data)))

/-- `canonical_sheet_name` (source line 317). -/
def canonical_sheet_name (sheet : String) : String :=
  let t := sheet_norm sheet
  let t := String.mk (pyStrip (wsRunAux false (t.data.map (fun c => if c == '_' then ' ' else c))))
  if t = "E V" then "EV"
  else if t = "TG" ∨ t = "TUKARGUNA" ∨ t = "TUKAR GUNA" then "TKR-GUNA"
  else if t = "TKR GUNA" ∨ t = "TKR-GUNA" then "TKR-GUNA"
  else if t = "PKM TUKAR GUNA" ∨ t = "PKM TUKARGUNA" then "PKM TUKARGUNA"
  else if t = "BGN-EVCB" ∨ t = "BGN EVCB" then "BGN EVCB"
  else t

/-- Substring test on strings (Python `needle in s`). -/
def strHas (needle s : String) : Bool := containsSub needle.data s.data

/-- `_sheet_implied_codes` (source line 386).  The input is already
upper-case; the source's `s = sheet_u.upper()` is the identity there. -/
def sheet_implied_codes (sheetU : String) : List String :=
  let s := String.mk (upperL sheetU.data)
  (if strHas "PKM" s then ["PKM"] else []) ++
  (if strHas "TKR-GUNA" s || s = "TKR GUNA" || s = "TG" then ["TKR-GUNA"]
   else if s = "TKR" then ["TKR"] else []) ++
  (if strHas "BGN" s then ["BGN"] else []) ++
  (if strHas "EVCB" s then ["EVCB"] else []) ++
  (if s = "EV" then ["EV"] else []) ++
  (if strHas "TELCO" s then ["TELCO"] else []) ++
  (if s = "PS" then ["PS"] else []) ++
  (if s = "SB" then ["SB"] else []) ++
  (if s = "CT" then ["CT"] else []) ++
  (if s = "PL" then ["PL"] else []) ++
  (if s = "KTUP" then ["KTUP"] else []) ++
  (if s = "JP" then ["JP"] else []) ++
  (if s = "LJUP" then ["LJUP"] else [])

/-- Split a character list into maximal runs of non-separator characters. -/
def tokAux (sep : Char → Bool) (cur : List Char) : List Char → List (List Char)
  | [] => if cur.isEmpty then [] else [cur.reverse]
  | c :: r =>
    if sep c then (if cur.isEmpty then tokAux sep [] r else cur.reverse :: tokAux sep [] r)
    else tokAux sep (c :: cur) r

def splitTokens (sep : Char → Bool) (l : List Char) : List (List Char) := tokAux sep [] l

/-- Union of two code collections keeping first-seen order (membership
model of Python set union). -/
def codeUnion (a b : List String) : List String := dedupFirst (a ++ b)

/-- `extract_codes` (source line 420): tokens of the normalized reference
that belong to `KNOWN_CODES`, plus the sheet-implied codes, plus the
`BGN EVCB` special case. -/
def extract_codes (fail_no : String) (sheet_name : String) : List String :=
  let s := (normalize_osc_pref fail_no).data
  let tokens := splitTokens isSepCode (upperL s)
  let codes := dedupFirst ((tokens.map String.mk).filter (fun t => KNOWN_CODES.contains t))
  let sn := canonical_sheet_name sheet_name
  let codes := codeUnion codes (sheet_implied_codes sn)
  if sn = "BGN EVCB" then codeUnion codes ["BGN", "EVCB"] else codes

/-- Reverse scan of `split_fail_induk` (source line 437): `rev` is the
reversed not-yet-visited left part, `suffix` the (in-order) part to the right
of the scan position. -/
def indukAux : List Char → List Char → Option (List Char)
  | [], _ => none
  | c :: rest, suffix =>
    if c == '-' && !rest.isEmpty &&
       KNOWN_CODES.any (fun code => containsSub code.data (upperL suffix)) then
      some rest.reverse
    else indukAux rest (c :: suffix)

/-- `split_fail_induk` (source line 437): drop the trailing dash-suffix that
contains a known code. -/
def split_fail_induk (fail_no : String) : String :=
  let s := pyStrip (normalize_osc_pref fail_no).data
  if s.isEmpty then String.mk s
  else match indukAux s.reverse [] with
       | some pre => String.mk pre
       | none => String.mk s

/-- Head character test for the tail pattern's follow class: dash, capital
letter, or opening round bracket. -/
def tailFollowOK : List Char → Bool
  | [] => true
  | c :: _ => c == '-' || isUpperC c || c == '('

/-- Leftmost-match scan for the tail pattern: slash, three to five digits,
then end or a follow-class character. -/
def tailScan : List Char → List Char
  | [] => []
  | c :: r =>
    if c == '/' then
      let ds := r.takeWhile isDigitC
      if 3 ≤ ds.length ∧ ds.length ≤ 5 ∧ tailFollowOK (r.drop ds.length) then ds
      else tailScan r
    else tailScan r

/-- `extract_tail_only` (source line 337). -/
def extract_tail_only (fail_no : String) : String :=
  String.mk (tailScan (normalize_osc_pref fail_no).data)

/-- Anchored parse of `MBSP slash digits slash series slash tail` used by
`extract_series_tail_key` and `extract_osc_head`. -/
def headParse (l : List Char) : Option (List Char × List Char × List Char) :=
  if isPref "MBSP/".data l then
    let r := l.drop 5
    let d1 := r.takeWhile isDigitC
    if d1.isEmpty then none else
    match r.drop d1.length with
    | '/' :: r3 =>
      let ser := r3.takeWhile (fun c => c != '/')
      if ser.isEmpty then none else
      (match r3.drop ser.length with
       | '/' :: r5 =>
         let ds := r5.takeWhile isDigitC
         if 3 ≤ ds.length then some (d1, ser, ds.take 5) else none
       | _ => none)
    | _ => none
  else none

/-- `extract_series_tail_key` (source line 343). -/
def extract_series_tail_key (fail_no : String) : String :=
  match headParse (normalize_osc_pref fail_no).data with
  | some (_, ser, tail) => String.mk ser ++ "|" ++ String.mk tail
  | none => ""

/-- `extract_osc_head` (source line 351). -/
def extract_osc_head (fail_no : String) : String :=
  match headParse (normalize_osc_pref fail_no).data with
  | some (d1, ser, tail) =>
      "MBSP/" ++ String.mk d1 ++ "/" ++ String.mk ser ++ "/" ++ String.mk tail
  | none => ""

/-- Scan of the jenis pattern (slash, three to five digits, dash, nonempty
rest reaching the end of the line): returns the rest after the dash. -/
def jenisScan : List Char → Option (List Char)
  | [] => none
  | c :: r =>
    if c == '/' then
      let ds := r.takeWhile isDigitC
      (match r.drop ds.length with
       | '-' :: t =>
         if 3 ≤ ds.length ∧ ds.length ≤ 5 ∧ !t.isEmpty then some t else jenisScan r
       | _ => jenisScan r)
    else jenisScan r

/-- Split on newline characters. -/
def splitNl (l : List Char) : List (List Char) := tokAux (fun c => c == '\n') [] l

/-- Last element of a list of lines (empty for no lines). -/
def lastLine (ls : List (List Char)) : List Char :=
  match ls with
  | [] => []
  | [x] => x
  | _ :: xs => lastLine xs

def isDash (c : Char) : Bool := c == '-' || c == '–' || c == '—'

/-- `extract_jenis_from_fail_no_display` (source line 468).  The search
pattern ends in `(.+)$` where the dot does not cross newlines, so a match can
only live on the final line of the formatted display string (which never ends
in a newline because `format_fail_no_display` strips it). -/
def extract_jenis_from_fail_no_display (fail_no_display : String) : String :=
  let s := format_fail_no_display fail_no_display
  if s = "" then "" else
  match jenisScan (lastLine (splitNl s.data)) with
  | none => ""
  | some t =>
    let tail := pyStrip t
    let tail := match tail with
                | c :: rest => if isDash c then rest.dropWhile isWS else tail
                | [] => tail
    String.mk (pyStrip tail)

/-- `is_serentak` (source line 380). -/
def is_serentak (sheet_name : String) (fail_no : String) : Bool :=
  canonical_sheet_name sheet_name = "SERENTAK" ||
  containsSub "SERENTAK".data (upperL fail_no.data)

/-! ## Applicant-name normalization (`pemohon_norm`) -/

/-- Word boundary before a word-character-initial pattern: start of string or
previous character not a word character. -/
def bBeforeOK : Option Char → Bool
  | none => true
  | some p => !isWordC p

/-- True when the next character (if any) is not a word character. -/
def noWordAhead : List Char → Bool
  | [] => true
  | c :: _ => !isWordC c

def matchLit (w l : List Char) : Option (List Char) :=
  if isPref w l then some (l.drop w.length) else none

/-- Matcher for the alternative `sdn` optional-dot whitespace-star `bhd`
optional-dot, followed by the closing word boundary of the pattern.  The
trailing optional dot backtracks: it is kept only when a word character
follows (otherwise the boundary after the dot would fail), and dropping it
always restores the boundary because the next character is the dot itself.
Returns the last consumed character and the rest. -/
def sdnBhdMatch (l : List Char) : Option (Char × List Char) :=
  match matchLit "sdn".data l with
  | none => none
  | some r1 =>
    let r2 := match r1 with | '.' :: t => t | t => t
    let r3 := r2.dropWhile isWS
    match matchLit "bhd".data r3 with
    | none => none
    | some r4 =>
      match r4 with
      | '.' :: rest =>
          if (match rest with | c :: _ => isWordC c | [] => false)
          then some ('.', rest) else some ('d', '.' :: rest)
      | _ => if noWordAhead r4 then some ('d', r4) else none

/-- Plain-word alternative with the closing word boundary. -/
def wordAltMatch (w l : List Char) : Option (Char × List Char) :=
  match matchLit w l with
  | some r => if noWordAhead r then some (w.getLastD ' ', r) else none
  | none => none

/-- The corporate-suffix alternation of `pemohon_norm`, tried in the
source's order (the plain `sdn` whitespace `bhd` alternative is subsumed by
the first alternative, whose dots are optional). -/
def corpMatchAt (l : List Char) : Option (Char × List Char) :=
  match sdnBhdMatch l with
  | some r => some r
  | none =>
    match wordAltMatch "bhd".data l with
    | some r => some r
    | none =>
      match wordAltMatch "berhad".data l with
      | some r => some r
      | none =>
        match wordAltMatch "enterprises".data l with
        | some r => some r
        | none =>
          match wordAltMatch "enterprise".data l with
          | some r => some r
          | none =>
            match wordAltMatch "plc".data l with
            | some r => some r
            | none =>
              match wordAltMatch "llp".data l with
              | some r => some r
              | none => wordAltMatch "ltd".data l

/-- The title alternation `tetuan|tuan|puan`. -/
def titleMatchAt (l : List Char) : Option (Char × List Char) :=
  match wordAltMatch "tetuan".data l with
  | some r => some r
  | none =>
    match wordAltMatch "tuan".data l with
    | some r => some r
    | none => wordAltMatch "puan".data l

/-- Generic word-bounded remove-all-matches scanner (used for both
substitutions of `pemohon_norm`); `fuel` bounds the number of steps and is
instantiated with the input length. -/
def remAllAux (matchAt : List Char → Option (Char × List Char)) :
    Nat → Option Char → List Char → List Char
  | 0, _, l => l
  | _ + 1, _, [] => []
  | f + 1, prev, c :: r =>
    if bBeforeOK prev then
      match matchAt (c :: r) with
      | some (lc, rest) => remAllAux matchAt f (some lc) rest
      | none => c :: remAllAux matchAt f (some c) r
    else c :: remAllAux matchAt f (some c) r

/-- `pemohon_norm` (source line 847). -/
def pemohon_norm (x : String) : String :=
  let s := pyStrip (lowerL x.data)
  let s := remAllAux titleMatchAt (s.length + 1) none s
  let s := remAllAux corpMatchAt (s.length + 1) none s
  String.mk (s.filter (fun c => isLowerC c || isDigitC c))

/-! ## Lot tokens (`lot_tokens`) -/

/-- Greedy chunking of one digit run by the two-to-six-digit pattern. -/
def chunkAux : Nat → List Char → List (List Char)
  | 0, _ => []
  | f + 1, run => if 2 ≤ run.length then run.take 6 :: chunkAux f (run.drop 6) else []

def lotScanAux : Nat → List Char → List (List Char)
  | 0, _ => []
  | _ + 1, [] => []
  | f + 1, c :: r =>
    if isDigitC c then
      let run := (c :: r).takeWhile isDigitC
      chunkAux (run.length + 1) run ++ lotScanAux f ((c :: r).drop run.length)
    else lotScanAux f r

/-- `lot_tokens` (source line 855): the set of two-to-six-digit tokens,
modelled as a duplicate-free list. -/
def lot_tokens (x : String) : List String :=
  dedupFirst ((lotScanAux (x.data.length + 1) x.data).map String.mk)

/-! ## Primary code (`parse_primary_code`) -/

/-- `str.replace("TKR GUNA", "TKR-GUNA")`. -/
def tkrGunaFix : List Char → List Char
  | 'T' :: 'K' :: 'R' :: ' ' :: 'G' :: 'U' :: 'N' :: 'A' :: r => "TKR-GUNA".data ++ tkrGunaFix r
  | c :: r => c :: tkrGunaFix r
  | [] => []

/-- The code alternation of `parse_primary_code`, in the source's order. -/
def PRIMARY_ALTS : List String :=
  ["TKR-GUNA", "PKM", "TKR", "124A", "204D", "PS", "SB", "CT",
   "KTUP", "LJUP", "JP", "PL", "BGN", "EVCB", "EV", "TELCO"]

/-- First alternative that matches at this position with its closing word
boundary. -/
def primaryMatchAt (l : List Char) : Option String :=
  (PRIMARY_ALTS.filter (fun w => isPref w.data l && noWordAhead (l.drop w.data.length))).head?

/-- Leftmost word-bounded occurrence of a primary-code alternative. -/
def ppcScan (prev : Option Char) : List Char → Option String
  | [] => none
  | c :: r =>
    if bBeforeOK prev then
      match primaryMatchAt (c :: r) with
      | some w => some w
      | none => ppcScan (some c) r
    else ppcScan (some c) r

/-- `parse_primary_code` (source line 1503). -/
def parse_primary_code (jenis_row sheet_u : String) : String :=
  let s := upperL (pyStrip jenis_row.data)
  let fromRegex := if s.isEmpty then none else ppcScan none (tkrGunaFix s)
  match fromRegex with
  | some w => w
  | none =>
    let su := canonical_sheet_name sheet_u
    if ["PKM", "TKR", "TKR-GUNA", "KTUP", "JP", "LJUP", "PL", "PS", "SB", "CT",
        "EVCB", "EV", "TELCO", "BGN"].contains su then su
    else if su = "PKM TUKARGUNA" then "TKR-GUNA" else ""

/-! ## Outstanding-reviewer mapper (`tindakan_ut`) -/

def isUtSep (c : Char) : Bool := c == ',' || c == '&' || c == '/'

/-- The anchored department-word substitution of `_norm_token`. -/
def remDeptWord (s : List Char) : List Char :=
  let tryWord (w : List Char) (s : List Char) : Option (List Char) :=
    match matchLit w s with
    | some r => if (match r with | c :: _ => isWS c | [] => false)
                then some (r.dropWhile isWS) else none
    | none => none
  match tryWord "JABATAN".data s with
  | some r => r
  | none =>
    match tryWord "BAHAGIAN".data s with
    | some r => r
    | none =>
      match tryWord "UNIT".data s with
      | some r => r
      | none =>
        match tryWord "SEKSYEN".data s with
        | some r => r
        | none => s

/-- `_norm_token` inside `tindakan_ut` (source line 768). -/
def utNormToken (x : String) : String :=
  let s := pyStrip (upperL x.data)
  let s := remDeptWord s
  let s := removeWS s
  String.mk (s.filter (fun c => isUpperC c || isDigitC c))

/-- `internal_map` of `tindakan_ut` (source line 775). -/
def UT_INTERNAL_MAP : List (String × String) :=
  [("KEJ", "Pengarah Kejuruteraan"), ("KEJURUTERAAN", "Pengarah Kejuruteraan"),
   ("PB", "Pengarah Perancang Bandar"), ("PERANCANGBANDAR", "Pengarah Perancang Bandar"),
   ("BGN", "Pengarah Bangunan"), ("BANGUNAN", "Pengarah Bangunan"),
   ("COB", "Pengarah COB"), ("PESURUHJAYABANGUNAN", "Pengarah COB"),
   ("KES", "Pengarah Kesihatan"), ("KESIHATAN", "Pengarah Kesihatan"),
   ("PEN", "Pengarah Penilaian"), ("PENILAIAN", "Pengarah Penilaian"),
   ("PBRN", "Pengarah Perbandaran"), ("PERBANDARAN", "Pengarah Perbandaran"),
   ("LESEN", "Pengarah Pelesenan"), ("PELESENAN", "Pengarah Pelesenan"),
   ("JL", "Pengarah Landskap"), ("LANDSKAP", "Pengarah Landskap")]

/-- `alias_substrings` of `tindakan_ut` (source line 804). -/
def UT_ALIAS_SUBS : List (String × String) :=
  [("KEJURUTERAAN", "Pengarah Kejuruteraan"),
   ("PERANCANGBANDAR", "Pengarah Perancang Bandar"),
   ("BANGUNAN", "Pengarah Bangunan"),
   ("PESURUHJAYABANGUNAN", "Pengarah COB"),
   ("KESIHATAN", "Pengarah Kesihatan"),
   ("PENILAIAN", "Pengarah Penilaian"),
   ("PERBANDARAN", "Pengarah Perbandaran"),
   ("PELESENAN", "Pengarah Pelesenan"),
   ("LANDSKAP", "Pengarah Landskap")]

def assocLookup (k : String) : List (String × String) → Option String
  | [] => none
  | (a, b) :: r => if a = k then some b else assocLookup k r

def aliasLookup (key : String) : List (String × String) → Option String
  | [] => none
  | (sub, title) :: r => if strHas sub key then some title else aliasLookup key r

/-- `tindakan_ut` (source line 760). -/
def tindakan_ut (belum_text : String) : String :=
  if is_blankish_text belum_text then "" else
  let raw := String.mk (pyStrip belum_text.data)
  let parts := ((splitTokens isUtSep raw.data).map (fun p => String.mk (pyStrip p))).filter
    (fun p => p ≠ "")
  let step := fun (acc : List String × List String) (p : String) =>
    if is_blankish_text p then acc else
    let key := utNormToken p
    let mapped := match assocLookup key UT_INTERNAL_MAP with
                  | some t => some t
                  | none => aliasLookup key UT_ALIAS_SUBS
    match mapped with
    | some t => (acc.1 ++ [t], acc.2)
    | none => (acc.1, acc.2 ++ [String.mk (upperL p.data)])
  let (internal, external) := parts.foldl step ([], [])
  let joined := String.intercalate "\n" (dedupFirst internal ++ dedupFirst external)
  String.mk (pyStrip joined.data)

/-- `sheet_is_ut_allowed` (source line 1542). -/
def sheet_is_ut_allowed (sheet_u : String) : Bool :=
  let s := canonical_sheet_name sheet_u
  UT_ALLOWED_SHEETS.contains s ||
  (strHas "GUNA" s && (strHas "TKR" s || strHas "TUKAR" s || s = "TG"))

/-! ## Dates -/

/-- A calendar date; `datetime.date` ordering is lexicographic. -/
structure Date where
  y : Nat
  m : Nat
  d : Nat
deriving DecidableEq, Repr

def dateLe (a b : Date) : Bool :=
  a.y < b.y || (a.y == b.y && (a.m < b.m || (a.m == b.m && a.d ≤ b.d)))

def dateLt (a b : Date) : Bool :=
  a.y < b.y || (a.y == b.y && (a.m < b.m || (a.m == b.m && a.d < b.d)))

/-- `in_range` (source line 267). -/
def in_range (d : Option Date) (start stop : Date) : Bool :=
  match d with
  | none => false
  | some x => dateLe start x && dateLe x stop

def padNat (w n : Nat) : String :=
  let s := Nat.repr n
  String.mk (List.replicate (w - s.length) '0' ++ s.data)

/-- `strftime("%d.%m.%Y")`. -/
def dateDMY (x : Date) : String :=
  padNat 2 x.d ++ "." ++ padNat 2 x.m ++ "." ++ Nat.repr x.y

/-- `date.isoformat()`. -/
def isoDate (x : Date) : String :=
  padNat 4 x.y ++ "-" ++ padNat 2 x.m ++ "-" ++ padNat 2 x.d

/-- `perkara_3lines` (source line 463). -/
def perkara_3lines (d : Option Date) : String :=
  "Penyediaan Kertas\nMesyuarat Tamat Tempoh\n" ++
  (match d with | some x => dateDMY x | none => "")

/-! ## Agenda model -/

/-- `AgendaBlock` (source line 863).  The set-valued fields are modelled as
duplicate-free lists. -/
structure AgendaBlock where
  is_ptj : Bool
  codes : List String
  osc_heads : List String
  tails : List String
  series_tail_keys : List String
  pemohon_key : String
  lot_set : List String
  has_osc : Bool
deriving DecidableEq, Repr

/-- `AgendaIndex` (source line 875). -/
structure AgendaIndex where
  tails_all : List String
  series_tail_all : List String
  osc_head_norm_all : List String
  blocks : List AgendaBlock
deriving DecidableEq, Repr

/-- The aggregation loop of `parse_agenda_docx` (source lines 1072-1098):
every parsed block is retained in `blocks`, but only non-exempt blocks
contribute their tails, series-tail keys and normalized heads to the three
index sets.  The upstream extraction of blocks from the raw document text is
performed by the document reader plus `_parse_agenda_block`; this embedding
takes the parsed block list as input. -/
def buildAgendaIndex (blocks : List AgendaBlock) : AgendaIndex :=
  { tails_all := (blocks.filter (fun b => !b.is_ptj)).flatMap (fun b => b.tails)
    series_tail_all := (blocks.filter (fun b => !b.is_ptj)).flatMap (fun b => b.series_tail_keys)
    osc_head_norm_all :=
      (blocks.filter (fun b => !b.is_ptj)).flatMap (fun b => b.osc_heads.map osc_norm)
    blocks := blocks }

/-! ## Application rows -/

/-- The raw spreadsheet row assembled by the Excel reader
(source lines 1470-1489): string fields are already `clean_str`-stripped and
the two deadline cells already parsed into dates by the reader. -/
structure RawRow where
  daerah : String
  sheet : String
  fail_no_disp : String
  fail_no_raw : String
  pemohon : String
  mukim : String
  lot : String
  jenis_row : String
  km_date : Option Date
  ut_date : Option Date
  belum : String
  keputusan : String
  induk_code : String
deriving DecidableEq, Repr

/-- An enriched row: the raw fields plus the derived fields added by
`enrich_rows` (source line 1519). -/
structure Row where
  daerah : String
  sheet : String
  fail_no_disp : String
  fail_no_raw : String
  pemohon : String
  mukim : String
  lot : String
  jenis_row : String
  km_date : Option Date
  ut_date : Option Date
  belum : String
  keputusan : String
  induk_code : String
  sheet_u : String
  codes : List String
  primary_code : String
  serentak : Bool
  fail_induk : String
  tail : String
  series_tail : String
  osc_head_norm : String
  pemohon_key : String
  lot_set : List String
deriving DecidableEq, Repr

/-- `enrich_rows` body for one row (source line 1519). -/
def enrichRow (r : RawRow) : Row :=
  let sheetU := canonical_sheet_name r.sheet
  { daerah := r.daerah
    sheet := r.sheet
    fail_no_disp := r.fail_no_disp
    fail_no_raw := r.fail_no_raw
    pemohon := r.pemohon
    mukim := r.mukim
    lot := r.lot
    jenis_row := r.jenis_row
    km_date := r.km_date
    ut_date := r.ut_date
    belum := r.belum
    keputusan := r.keputusan
    induk_code := r.induk_code
    sheet_u := sheetU
    codes := extract_codes r.fail_no_raw sheetU
    primary_code := parse_primary_code r.jenis_row sheetU
    serentak := is_serentak sheetU (if r.fail_no_disp ≠ "" then r.fail_no_disp else r.fail_no_raw)
    fail_induk := split_fail_induk r.fail_no_raw
    tail := extract_tail_only r.fail_no_raw
    series_tail := extract_series_tail_key r.fail_no_raw
    osc_head_norm := osc_norm (extract_osc_head r.fail_no_raw)
    pemohon_key := pemohon_norm r.pemohon
    lot_set := lot_tokens r.lot }

def enrich_rows (rows : List RawRow) : List Row := rows.map enrichRow

/-! ## Cross-reference matcher -/

/-- `_agenda_fallback_match` (source line 1551), with the guard clauses
(`continue`/early `return False`) written as one Boolean conjunction. -/
def agenda_fallback_match (row : Row) (agenda : AgendaIndex) : Bool :=
  AGENDA_FILTER_SHEETS.contains row.sheet_u &&
  !(row.pemohon_key == "") &&
  !row.lot_set.isEmpty &&
  agenda.blocks.any (fun blk =>
    !blk.is_ptj &&
    !(blk.pemohon_key == "") && !blk.lot_set.isEmpty &&
    (blk.codes.isEmpty || !(interL row.codes blk.codes).isEmpty) &&
    row.pemohon_key == blk.pemohon_key &&
    (!(interL row.lot_set blk.lot_set).isEmpty &&
     !(decide (2 ≤ min row.lot_set.length blk.lot_set.length) &&
       decide ((interL row.lot_set blk.lot_set).length < 2))))

/-- The `_keep` predicate inside `build_categories` (source line 1599):
`true` when the row survives agenda filtering; the short-circuit tier chain
is written as a Boolean formula. -/
def keepRow (row : Row) (agenda : AgendaIndex) : Bool :=
  !(AGENDA_FILTER_SHEETS.contains row.sheet_u) ||
  (!(!(row.tail == "") && agenda.tails_all.contains row.tail) &&
   !(!(row.series_tail == "") && agenda.series_tail_all.contains row.series_tail) &&
   !(!(row.osc_head_norm == "") && agenda.osc_head_norm_all.contains row.osc_head_norm) &&
   !agenda_fallback_match row agenda)

/-! ## Category records and sorting -/

/-- `CategoryRecord`: one output row produced by `make_rec`
(source line 1622), plus the sequence number assigned after sorting. -/
structure CategoryRecord where
  cat : Nat
  tindakan : String
  jenis : String
  fail_no : String
  pemohon : String
  daerah : String
  mukim : String
  lot : String
  perkara : String
  dedup_key : String
  bil : Nat
deriving DecidableEq, Repr

/-- `make_rec` (source line 1622). -/
def make_rec (cat : Nat) (tindakan : String) (base : Row)
    (jenis fail_no perkara extra_key : String) : CategoryRecord :=
  { cat := cat, tindakan := tindakan, jenis := jenis, fail_no := fail_no,
    pemohon := base.pemohon, daerah := base.daerah, mukim := base.mukim, lot := base.lot,
    perkara := perkara,
    dedup_key := Nat.repr cat ++ "|" ++ tindakan ++ "|" ++ osc_norm fail_no ++ "|" ++
      pemohon_norm base.pemohon ++ "|" ++ extra_key,
    bil := 0 }

def natCmp (a b : Nat) : Ordering := if a < b then .lt else if b < a then .gt else .eq

def charCmp (a b : Char) : Ordering := natCmp a.toNat b.toNat

/-- Lexicographic comparison of character lists by code point, the ordering
Python uses on `str`. -/
def clCmp : List Char → List Char → Ordering
  | [], [] => .eq
  | [], _ :: _ => .lt
  | _ :: _, [] => .gt
  | a :: as, b :: bs => match charCmp a b with | .eq => clCmp as bs | o => o

def strCmp (a b : String) : Ordering := clCmp a.data b.data

def ordThen : Ordering → Ordering → Ordering
  | .eq, o => o
  | o, _ => o

def strStarts (p s : String) : Bool := isPref p.data s.data

/-- Category 1 sort key (source line 1763): department first (labels starting
with "Pengarah Perancang" before the rest), then district rank, then display
reference. -/
def cat1Cmp (a b : CategoryRecord) : Ordering :=
  ordThen (natCmp (if strStarts "Pengarah Perancang" a.tindakan then 0 else 1)
                  (if strStarts "Pengarah Perancang" b.tindakan then 0 else 1))
    (ordThen (natCmp (daerahRank a.daerah) (daerahRank b.daerah)) (strCmp a.fail_no b.fail_no))

/-- Category 2 sort key (source line 1764): district rank, display reference,
department label. -/
def cat2Cmp (a b : CategoryRecord) : Ordering :=
  ordThen (natCmp (daerahRank a.daerah) (daerahRank b.daerah))
    (ordThen (strCmp a.fail_no b.fail_no) (strCmp a.tindakan b.tindakan))

/-- Categories 3-5 sort key (source lines 1765-1767): district rank then
display reference. -/
def cat345Cmp (a b : CategoryRecord) : Ordering :=
  ordThen (natCmp (daerahRank a.daerah) (daerahRank b.daerah)) (strCmp a.fail_no b.fail_no)

def cmpToLe (cmp : α → α → Ordering) (a b : α) : Bool :=
  match cmp a b with | .gt => false | _ => true

/-- Stable insertion: `a` goes before the first element it is
less-or-equal to.  With `le` the non-strict key comparison this reproduces
Python's stable `list.sort`. -/
def ordInsert (le : α → α → Bool) (a : α) : List α → List α
  | [] => [a]
  | b :: l => if le a b then a :: b :: l else b :: ordInsert le a l

def isort (le : α → α → Bool) (l : List α) : List α := l.foldr (ordInsert le) []

/-- `dedup_list` (source line 1752): first-seen row wins by `dedup_key`. -/
def dedupRecAux (seen : List String) : List CategoryRecord → List CategoryRecord
  | [] => []
  | r :: rest =>
    if seen.contains r.dedup_key then dedupRecAux seen rest
    else r :: dedupRecAux (r.dedup_key :: seen) rest

def dedup_list (l : List CategoryRecord) : List CategoryRecord := dedupRecAux [] l

/-- The final 1-based sequence numbers (source line 1769). -/
def assignBil : Nat → List CategoryRecord → List CategoryRecord
  | _, [] => []
  | n, r :: rest => { r with bil := n } :: assignBil (n + 1) rest

/-! ## Grouping and classification (`build_categories`) -/

/-- Python `min` over the group's process deadlines (first minimum wins). -/
def minDate : List Date → Option Date
  | [] => none
  | d :: rest => some (rest.foldl (fun a b => if dateLt b a then b else a) d)

/-- Longest display reference, first maximal wins
(`max(cand_disp, key=len)`, source line 1654). -/
def bestDisp (grp : List Row) (induk : String) : String :=
  match (grp.map (·.fail_no_disp)).filter (· ≠ "") with
  | [] => induk
  | c :: rest => rest.foldl (fun a b => if a.length < b.length then b else a) c

/-- The serentak decoration of the jenis label (source lines 1660-1665). -/
def serJenis (is_ser : Bool) (jenis : String) : String :=
  if is_ser then
    (if jenis ≠ "" then
       (if !strHas "(SERENTAK)" (String.mk (upperL jenis.data)) then jenis ++ " (Serentak)"
        else jenis)
     else "(Serentak)")
  else jenis

/-- `g.get("fail_no_disp", "") or g["fail_no_raw"]`. -/
def rowDisp (g : Row) : String := if g.fail_no_disp ≠ "" then g.fail_no_disp else g.fail_no_raw

def UT_PRIMARY_ALLOWED : List String :=
  ["PKM", "TKR", "TKR-GUNA", "BGN", "EVCB", "EV", "TELCO"]

def UT_PRIMARY_DISALLOWED : List String :=
  ["KTUP", "LJUP", "JP", "PL", "PS", "SB", "CT", "204D", "124A"]

/-- Category 2 decision chain for one row (source lines 1689-1724). -/
def cat2OfRow (utStart utEnd : Date) (is_ser : Bool) (jenis_best : String) (g : Row) :
    List CategoryRecord :=
  if !sheet_is_ut_allowed g.sheet_u then [] else
  match g.ut_date with
  | none => []
  | some ud =>
    if !(dateLe utStart ud && dateLe ud utEnd) then [] else
    if is_blankish_text g.belum then [] else
    let pc := String.mk (pyStrip (upperL g.primary_code.data))
    if UT_PRIMARY_DISALLOWED.contains pc then [] else
    if pc ≠ "" ∧ !UT_PRIMARY_ALLOWED.contains pc then [] else
    if g.sheet_u = "SERENTAK" ∧ pc = "" ∧
       ((g.induk_code ≠ "" ∧ !SERENTAK_UT_ALLOWED_INDUK.contains g.induk_code) ∨
        (interL g.codes UT_PRIMARY_ALLOWED).isEmpty) then [] else
    let tindakan := tindakan_ut g.belum
    if is_blankish_text tindakan then [] else
    let disp := rowDisp g
    let jenis0 := extract_jenis_from_fail_no_display disp
    let jenis1 := if jenis0 ≠ "" then jenis0 else (if is_ser then jenis_best else g.sheet_u)
    let jenis := if is_ser ∧ !strHas "(SERENTAK)" (String.mk (upperL jenis1.data))
                 then (if jenis1 ≠ "" then jenis1 ++ " (Serentak)" else "(Serentak)")
                 else jenis1
    let perkara := "Ulasan teknikal belum dikemukakan. Tamat Tempoh " ++ dateDMY ud ++ "."
    let extra := g.sheet_u ++ "|" ++ pc ++ "|" ++ isoDate ud ++ "|" ++
      String.mk (pyStrip g.belum.data)
    [make_rec 2 tindakan g jenis disp perkara extra]

/-- The five per-group record lists in emission order. -/
structure CatLists where
  c1 : List CategoryRecord
  c2 : List CategoryRecord
  c3 : List CategoryRecord
  c4 : List CategoryRecord
  c5 : List CategoryRecord
deriving DecidableEq, Repr

/-- One iteration of the group loop of `build_categories`
(source lines 1641-1750).  An empty group cannot occur (groups come from
occurring parent keys); it yields no records. -/
def buildFromGroup (kmStart kmEnd utStart utEnd : Date) (utEnabled : Bool)
    (induk : String) (grp : List Row) : CatLists :=
  match grp with
  | [] => { c1 := [], c2 := [], c3 := [], c4 := [], c5 := [] }
  | g0 :: _ =>
    let is_ser := grp.any (·.serentak)
    let union_codes := dedupFirst (grp.flatMap (·.codes))
    let km_date := minDate (grp.filterMap (·.km_date))
    let best := bestDisp grp induk
    let jenis_best := serJenis is_ser (extract_jenis_from_fail_no_display best)
    let kmPerk := perkara_3lines km_date
    let serOn := is_ser ∧ in_range km_date kmStart kmEnd
    let serC1 :=
      (if serOn ∧ !(interL union_codes (PB_CODES.filter (fun c => !(["PS", "SB", "CT"].contains c)))).isEmpty then
         [make_rec 1 "Pengarah Perancang Bandar" g0 jenis_best best kmPerk "SER-PB"] else []) ++
      (if serOn ∧ !(interL union_codes ["BGN", "EVCB", "EV", "TELCO"]).isEmpty then
         [make_rec 1 "Pengarah Bangunan" g0 jenis_best best kmPerk "SER-BGN"] else [])
    let nsC1 :=
      if !is_ser then grp.flatMap (fun g =>
        if !in_range g.km_date kmStart kmEnd then [] else
        let disp := rowDisp g
        let j0 := extract_jenis_from_fail_no_display disp
        let jenis := if j0 ≠ "" then j0 else g.sheet_u
        (if !(interL g.codes ["PKM", "TKR", "TKR-GUNA"]).isEmpty then
           [make_rec 1 "Pengarah Perancang Bandar" g jenis disp (perkara_3lines g.km_date) "NS-PB"]
         else []) ++
        (if !(interL g.codes ["BGN", "EVCB", "EV", "TELCO"]).isEmpty then
           [make_rec 1 "Pengarah Bangunan" g jenis disp (perkara_3lines g.km_date) "NS-BGN"]
         else []))
      else []
    let c2 := if utEnabled then grp.flatMap (cat2OfRow utStart utEnd is_ser jenis_best) else []
    let serC3 :=
      if serOn ∧ !(interL union_codes KEJ_CODES).isEmpty then
        [make_rec 3 "Pengarah Kejuruteraan" g0 jenis_best best kmPerk "SER-KEJ"] else []
    let serC4 :=
      if serOn ∧ !(interL union_codes JL_CODES).isEmpty then
        [make_rec 4 "Pengarah Landskap" g0 jenis_best best kmPerk "SER-JL"] else []
    let serC5 :=
      if serOn ∧ !(interL union_codes ["124A", "204D"]).isEmpty then
        [make_rec 5 "Pengarah Perancang Bandar" g0 jenis_best best kmPerk "SER-124A204D"] else []
    let nsRest := fun (cat : Nat) (tindakan : String) (sheets : List String) (keyf : Row → String) =>
      if !is_ser then grp.flatMap (fun g =>
        if in_range g.km_date kmStart kmEnd ∧ sheets.contains g.sheet_u then
          let disp := rowDisp g
          let j0 := extract_jenis_from_fail_no_display disp
          let jenis := if j0 ≠ "" then j0 else g.sheet_u
          [make_rec cat tindakan g jenis disp (perkara_3lines g.km_date) (keyf g)]
        else [])
      else []
    let nsC3 := nsRest 3 "Pengarah Kejuruteraan" ["KTUP", "JP", "LJUP"] (fun g => "NS-" ++ g.sheet_u)
    let nsC4 := nsRest 4 "Pengarah Landskap" ["PL"] (fun _ => "NS-PL")
    let nsC5 := nsRest 5 "Pengarah Perancang Bandar" ["PS", "SB", "CT"] (fun g => "NS-" ++ g.sheet_u)
    { c1 := serC1 ++ nsC1, c2 := c2, c3 := serC3 ++ nsC3, c4 := serC4 ++ nsC4, c5 := serC5 ++ nsC5 }

/-- First-seen parent keys, the iteration order of the Python insertion-order
dictionary `by_induk`. -/
def groupKeys (rows : List Row) : List String := dedupFirst (rows.map (·.fail_induk))

/-- `build_categories` (source line 1585), returning the five sorted,
deduplicated, numbered category lists. -/
def build_categories (rows : List Row) (agenda : Option AgendaIndex)
    (kmStart kmEnd utStart utEnd : Date) (utEnabled agendaEnabled : Bool) : CatLists :=
  let rows := rows.filter (fun r => keputusan_is_empty r.keputusan)
  let rows := match agenda with
              | some ag => if agendaEnabled then rows.filter (fun r => keepRow r ag) else rows
              | none => rows
  let per := (groupKeys rows).map (fun induk =>
    buildFromGroup kmStart kmEnd utStart utEnd utEnabled induk
      (rows.filter (fun r => r.fail_induk = induk)))
  let fin := fun (cmp : CategoryRecord → CategoryRecord → Ordering)
      (proj : CatLists → List CategoryRecord) =>
    assignBil 1 (isort (cmpToLe cmp) (dedup_list (per.flatMap proj)))
  { c1 := fin cat1Cmp (·.c1)
    c2 := fin cat2Cmp (·.c2)
    c3 := fin cat345Cmp (·.c3)
    c4 := fin cat345Cmp (·.c4)
    c5 := fin cat345Cmp (·.c5) }

deriving instance DecidableEq for Except

/-! ## Applicant/lot display formatters (`format_pemohon_display`,
`format_lot_display`)

These two source functions reference the module-level names
`_KEEP_ACRONYMS_COMMON` and `_proper_case_line_with_rules`, neither of which
is defined anywhere in `src/app.py`; evaluating those references raises
`NameError` at run time.  The embedding returns `Except Unit String`, where
`Except.error ()` models the raised `NameError`.  Every code path of
`_format_simple_token` after the `_KEEP_ACRONYMS_COMMON` membership test
(source line 601) is unreachable, because the test itself raises. -/

/-- Python `ch.islower()` on the Latin-1 range. -/
def pyIsLower (c : Char) : Bool :=
  isLowerC c || (224 ≤ c.toNat && c.toNat ≤ 255 && c.toNat != 247)

/-- Python `ch.isupper()` on the Latin-1 range. -/
def pyIsUpper (c : Char) : Bool :=
  isUpperC c || (192 ≤ c.toNat && c.toNat ≤ 222 && c.toNat != 215)

/-- The word-token character class of the tokenizing regex. -/
def tokChar (c : Char) : Bool :=
  isDigitC c || isUpperC c || isLowerC c || (192 ≤ c.toNat && c.toNat ≤ 255)

/-- `_ROMAN` (source line 490). -/
def ROMAN_SET : List String :=
  ["i", "ii", "iii", "iv", "v", "vi", "vii", "viii", "ix", "x", "xi", "xii",
   "xiii", "xiv", "xv", "xvi", "xvii", "xviii", "xix", "xx"]

/-- `corp_token_map` (source line 510). -/
def CORP_TOKEN_MAP : List (String × String) :=
  [("SDN", "Sdn"), ("BHD", "Bhd"), ("BERHAD", "Berhad"), ("ENTERPRISE", "Enterprise"),
   ("ENTERPRISES", "Enterprises"), ("LTD", "Ltd"), ("LIMITED", "Limited"), ("CO", "Co"),
   ("COMPANY", "Company"), ("INC", "Inc"), ("THE", "The"), ("HOLDINGS", "Holdings"),
   ("PROPERTIES", "Properties"), ("DEVELOPMENT", "Development"),
   ("INDUSTRIES", "Industries"), ("CONSORTIUM", "Consortium"),
   ("MANAGEMENT", "Management"), ("ELECTRONICS", "Electronics"), ("HOTEL", "Hotel")]

/-- `non_acronym_title_map` (source line 533).  The source also lists two
keys spelled with an apostrophe after `DATO`; the lookup key is the cleaned
token (upper-case letters and digits only), so those two entries can never
match and are omitted here. -/
def TITLE_MAP : List (String × String) :=
  [("TETUAN", "Tetuan"), ("DATO", "Dato"), ("DATUK", "Datuk"), ("HAJI", "Haji"),
   ("HAJAH", "Hajah"), ("TUAN", "Tuan"), ("PUAN", "Puan"), ("ENCIK", "Encik"),
   ("CIK", "Cik"), ("BIN", "bin"), ("BINTI", "binti"), ("BT", "Bt"), ("BTE", "Bte"),
   ("DR", "Dr"), ("PROF", "Prof"), ("IR", "Ir"), ("TS", "Ts"), ("HJ", "Hj"),
   ("PN", "Pn"), ("EN", "En")]

/-- `_format_simple_token` (source line 570) up to the point where the
undefined `_KEEP_ACRONYMS_COMMON` is evaluated. -/
def formatSimpleToken (tok : List Char) : Except Unit (List Char) :=
  if tok.isEmpty then .ok tok
  else if tok.any pyIsLower && tok.any pyIsUpper then .ok tok
  else
    let up := upperL tok
    let clean := up.filter (fun c => isUpperC c || isDigitC c)
    if containsSub "@".data tok || containsSub "://".data tok then .ok tok
    else if !clean.isEmpty && clean.all isDigitC then .ok clean
    else if ROMAN_SET.contains (String.mk (lowerL clean)) then .ok (upperL clean)
    else
      match assocLookup (String.mk clean) CORP_TOKEN_MAP with
      | some m => .ok m.data
      | none =>
        match assocLookup (String.mk clean) TITLE_MAP with
        | some m => .ok m.data
        | none => .error ()

/-- Maximal word token starting at the head (run of token characters,
extended by joiner-plus-run groups). -/
def tokExt : Nat → List Char → List Char → (List Char × List Char)
  | 0, acc, r => (acc, r)
  | f + 1, acc, r =>
    match r with
    | j :: rest =>
      if (j == '&' || j == '/') &&
         (match rest with | c :: _ => tokChar c | [] => false) then
        let run := rest.takeWhile tokChar
        tokExt f (acc ++ [j] ++ run) (rest.drop run.length)
      else (acc, j :: rest)
    | [] => (acc, [])

/-- Token iterator of `word_re.finditer`: list of (gap, token) pairs plus the
trailing gap. -/
def wordIterAux : Nat → List Char → (List (List Char × List Char) × List Char)
  | 0, l => ([], l)
  | f + 1, l =>
    let gap := l.takeWhile (fun c => !tokChar c)
    let r := l.drop gap.length
    match r with
    | [] => ([], gap)
    | _ :: _ =>
      let run := r.takeWhile tokChar
      let (tok, rest) := tokExt (r.length + 1) run (r.drop run.length)
      let (pairs, trail) := wordIterAux f rest
      ((gap, tok) :: pairs, trail)

def wordIter (l : List Char) : List (List Char × List Char) × List Char :=
  wordIterAux (l.length + 1) l

/-- Sequential token formatting; the first raising token aborts the whole
line, as the first `NameError` would. -/
def fmtLineAux : List (List Char × List Char) → Except Unit (List Char)
  | [] => .ok []
  | (gap, tok) :: rest => do
    let t ← formatSimpleToken tok
    let r ← fmtLineAux rest
    .ok (gap ++ t ++ r)

/-- Collapse runs of two or more spaces/tabs to one space, keeping single
occurrences (the `[ space-tab ]` two-or-more substitution of
`_format_line`). -/
def st2Aux : Nat → List Char → List Char
  | 0, l => l
  | _ + 1, [] => []
  | f + 1, c :: r =>
    if c == ' ' || c == '\t' then
      match r with
      | d :: _ =>
        if d == ' ' || d == '\t' then
          ' ' :: st2Aux f (r.dropWhile (fun x => x == ' ' || x == '\t'))
        else c :: st2Aux f r
      | [] => [c]
    else c :: st2Aux f r

/-- `_format_line` (source line 636). -/
def fmtLine (line : List Char) : Except Unit (List Char) := do
  let s := pyStrip line
  let (pairs, trail) := wordIter s
  let body ← fmtLineAux pairs
  .ok (pyStrip (st2Aux ((body ++ trail).length + 1) (body ++ trail)))

/-- `str.split(sep)` keeping empty segments. -/
def splitKeep (sepc : Char) : List Char → List (List Char)
  | [] => [[]]
  | c :: r =>
    if c == sepc then [] :: splitKeep sepc r
    else match splitKeep sepc r with
         | h :: t => (c :: h) :: t
         | [] => [[c]]

def exMapM (f : α → Except Unit β) : List α → Except Unit (List β)
  | [] => .ok []
  | a :: r => do
    let b ← f a
    let bs ← exMapM f r
    .ok (b :: bs)

def joinNl (ls : List (List Char)) : List Char :=
  match ls with
  | [] => []
  | [x] => x
  | x :: xs => x ++ '\n' :: joinNl xs

/-- The tokens examined by `format_pemohon_display` for a given input. -/
def pemohonTokens (name : String) : List (List Char) :=
  (splitKeep '\n' (crToNl name.data)).flatMap (fun ln => ((wordIter (pyStrip ln)).1.map (·.2)))

/-- `format_pemohon_display` (source line 492), with `Except.error ()` for
the `NameError` raised by the undefined `_KEEP_ACRONYMS_COMMON`. -/
def format_pemohon_display (name : String) : Except Unit String :=
  if is_blankish_text name then .ok "" else
  let lines := splitKeep '\n' (crToNl name.data)
  match exMapM fmtLine lines with
  | .error e => .error e
  | .ok outs => .ok (String.mk (pyStrip (joinNl outs)))

/-- `format_lot_display` (source line 741): every non-blank input reaches the
call to the undefined `_proper_case_line_with_rules` on its first line and
raises `NameError`. -/
def format_lot_display (s : String) : Except Unit String :=
  if is_blankish_text s then .ok "" else .error ()

/-! ## Spec-side definitions used to compare the code with the claims -/

/-- The fuzzy-fallback condition exactly as claim C5 words it: some
non-exempt block with applicant-key equality, non-empty lot intersection, at
least two overlapping lot tokens whenever both sides have at least two, and
a code intersection whenever the block declares codes. -/
def fallbackSpecPred (row : Row) (blocks : List AgendaBlock) : Prop :=
  ∃ b ∈ blocks, b.is_ptj = false ∧
    row.pemohon_key = b.pemohon_key ∧
    (interL row.lot_set b.lot_set) ≠ [] ∧
    (2 ≤ min row.lot_set.length b.lot_set.length → 2 ≤ (interL row.lot_set b.lot_set).length) ∧
    (b.codes ≠ [] → interL row.codes b.codes ≠ [])

/-- Separator-or-whitespace class of claim C8: the characters whose
insertion, deletion or change the claim says must not affect `osc_norm`. -/
def keepCh (c : Char) : Bool := !isWS c && !isSepOsc c

/-- Claim C8's relation "differ only in separator punctuation or
whitespace": equal after erasing all separator and whitespace characters. -/
def sepWsEq (a b : String) : Prop := a.data.filter keepCh = b.data.filter keepCh

/-- The five legacy agency-prefix spellings named by claim C8. -/
def LEGACY_SPELLINGS : List String := ["MBSP", "MBPS", "MPSP", "M.B.S.P", "M.B.P.S"]

/-! ## Example inputs used by the concrete theorems -/

/-- A raw serentak row (SPU, planning sub-filing). -/
def exRowSer1 : RawRow :=
  { daerah := "SPU", sheet := "SERENTAK",
    fail_no_disp := "MBSP/15/U24-2511/0120-PKM",
    fail_no_raw := "MBSP/15/U24-2511/0120-PKM",
    pemohon := "ALI", mukim := "MK A", lot := "1", jenis_row := "",
    km_date := some ⟨2026, 1, 15⟩, ut_date := none,
    belum := "", keputusan := "", induk_code := "" }

/-- The same parent filing's building sub-filing, read from another district
file (SPS). -/
def exRowSer2 : RawRow :=
  { exRowSer1 with
    daerah := "SPS",
    fail_no_disp := "MBSP/15/U24-2511/0120-BGN",
    fail_no_raw := "MBSP/15/U24-2511/0120-BGN",
    mukim := "MK B" }

/-- A non-serentak building row in district SPU. -/
def exRowBgn : RawRow :=
  { exRowSer1 with
    sheet := "BGN",
    fail_no_disp := "MBSP/15/U24-2511/0200-BGN",
    fail_no_raw := "MBSP/15/U24-2511/0200-BGN" }

/-- A non-serentak planning row in district SPT. -/
def exRowPkm : RawRow :=
  { exRowSer1 with
    daerah := "SPT", sheet := "PKM",
    fail_no_disp := "MBSP/15/U24-2511/0100-PKM",
    fail_no_raw := "MBSP/15/U24-2511/0100-PKM" }

/-- The claim C6 scenario row. -/
def exRowC6 : RawRow :=
  { daerah := "SPU", sheet := "PKM",
    fail_no_disp := "MBSP/15/U24-2511/0120-PKM",
    fail_no_raw := "MBSP/15/U24-2511/0120-PKM",
    pemohon := "Tetuan ABC Sdn Bhd", mukim := "Mukim 1", lot := "Lot 123",
    jenis_row := "", km_date := some ⟨2026, 1, 15⟩, ut_date := none,
    belum := "", keputusan := "", induk_code := "" }

/-- An enriched row whose applicant name normalizes to the empty key and
whose tail tiers are all empty (blank reference). -/
def exRowEmptyKey : Row :=
  enrichRow
    { daerah := "SPU", sheet := "PKM", fail_no_disp := "", fail_no_raw := "",
      pemohon := "Tetuan", mukim := "", lot := "12, 34", jenis_row := "",
      km_date := none, ut_date := none, belum := "", keputusan := "", induk_code := "" }

/-- A non-exempt agenda block with no applicant line (empty applicant key)
and lot tokens 12 and 34. -/
def exBlkEmptyKey : AgendaBlock :=
  { is_ptj := false, codes := [], osc_heads := [], tails := [],
    series_tail_keys := [], pemohon_key := "", lot_set := ["12", "34"], has_osc := false }

/-! ## Claim theorems -/

/-- Claim C1 (code bug): the spec requires the bracketed sub-type qualifier
in a reference such as `SB(204D)-0001` with origin sheet `SB` to be
neutralized, so that `extract_codes` yields a set containing `SB` but not
`204D`.  The code has no such neutralization: the round brackets are token
separators, so the qualifier `204D` is extracted as its own code. -/
theorem C1_extract_codes_divergence :
    extract_codes "SB(204D)-0001" "SB" = ["SB", "204D"] ∧
    "204D" ∈ extract_codes "SB(204D)-0001" "SB" ∧
    "SB" ∈ extract_codes "SB(204D)-0001" "SB" := by decide

/-- Claim C6 (confirmed): a PKM-sheet row with reference
`MBSP/15/U24-2511/0120-PKM`, process deadline 15/01/2026 inside the KM
window 08/01/2026..27/01/2026, blank decision and no agenda suppression
yields exactly one Category-1 record, with department label
"Pengarah Perancang Bandar" and permit-type label "PKM" (and nothing in the
other KM categories). -/
theorem C6_end_to_end_scenario :
    (build_categories (enrich_rows [exRowC6]) none ⟨2026, 1, 8⟩ ⟨2026, 1, 27⟩
        ⟨2026, 1, 8⟩ ⟨2026, 1, 27⟩ false false).c1.length = 1 ∧
    ((build_categories (enrich_rows [exRowC6]) none ⟨2026, 1, 8⟩ ⟨2026, 1, 27⟩
        ⟨2026, 1, 8⟩ ⟨2026, 1, 27⟩ false false).c1.map (·.tindakan))
      = ["Pengarah Perancang Bandar"] ∧
    ((build_categories (enrich_rows [exRowC6]) none ⟨2026, 1, 8⟩ ⟨2026, 1, 27⟩
        ⟨2026, 1, 8⟩ ⟨2026, 1, 27⟩ false false).c1.map (·.jenis)) = ["PKM"] ∧
    (build_categories (enrich_rows [exRowC6]) none ⟨2026, 1, 8⟩ ⟨2026, 1, 27⟩
        ⟨2026, 1, 8⟩ ⟨2026, 1, 27⟩ false false).c3 = [] ∧
    (build_categories (enrich_rows [exRowC6]) none ⟨2026, 1, 8⟩ ⟨2026, 1, 27⟩
        ⟨2026, 1, 8⟩ ⟨2026, 1, 27⟩ false false).c4 = [] ∧
    (build_categories (enrich_rows [exRowC6]) none ⟨2026, 1, 8⟩ ⟨2026, 1, 27⟩
        ⟨2026, 1, 8⟩ ⟨2026, 1, 27⟩ false false).c5 = [] := by decide

/-- Claim C3 counterexample: two serentak rows of one parent filing read
from different district files.  Swapping their arrival order changes the
Category-1 output (district, representative reference and jenis all change
with the group's first row), so the classification is not invariant under
permutation of the input row order. -/
theorem C3_counterexample :
    ((build_categories (enrich_rows [exRowSer1, exRowSer2]) none ⟨2026, 1, 8⟩ ⟨2026, 1, 27⟩
        ⟨2026, 1, 8⟩ ⟨2026, 1, 27⟩ false false).c1.map (·.daerah)) = ["SPU", "SPU"] ∧
    ((build_categories (enrich_rows [exRowSer2, exRowSer1]) none ⟨2026, 1, 8⟩ ⟨2026, 1, 27⟩
        ⟨2026, 1, 8⟩ ⟨2026, 1, 27⟩ false false).c1.map (·.daerah)) = ["SPS", "SPS"] ∧
    build_categories (enrich_rows [exRowSer1, exRowSer2]) none ⟨2026, 1, 8⟩ ⟨2026, 1, 27⟩
        ⟨2026, 1, 8⟩ ⟨2026, 1, 27⟩ false false ≠
      build_categories (enrich_rows [exRowSer2, exRowSer1]) none ⟨2026, 1, 8⟩ ⟨2026, 1, 27⟩
        ⟨2026, 1, 8⟩ ⟨2026, 1, 27⟩ false false := by decide

/-- Claim C3 amended: with the permutation clause removed, what remains is
that the classification is a deterministic pure function of the ordered row
list and its parameters: two runs on identical input produce identical
category lists.  (The pipeline shares no mutable state between runs; order
insensitivity itself is refuted by the counterexample.) -/
theorem C3_amended_determinism (rows : List RawRow) (agenda : Option AgendaIndex)
    (kmS kmE utS utE : Date) (ue ae : Bool) :
    build_categories (enrich_rows rows) agenda kmS kmE utS utE ue ae =
      build_categories (enrich_rows rows) agenda kmS kmE utS utE ue ae := rfl

/-- Claim C4 counterexample: a Category-1 list holding a building-department
row of district SPU and a planning-department row of district SPT.  The
claimed sort (district rank first) would put SPU before SPT; the code sorts
by department first, so the SPT planning row comes first. -/
theorem C4_counterexample :
    ((build_categories (enrich_rows [exRowBgn, exRowPkm]) none ⟨2026, 1, 8⟩ ⟨2026, 1, 27⟩
        ⟨2026, 1, 8⟩ ⟨2026, 1, 27⟩ false false).c1.map (fun r => (r.tindakan, r.daerah)))
      = [("Pengarah Perancang Bandar", "SPT"), ("Pengarah Bangunan", "SPU")] := by decide

/-- Claim C5 counterexample: an agenda-filterable record whose applicant
name normalizes to the empty key, against a non-exempt block that also has
an empty applicant key and fully overlapping lot tokens.  Every condition
the claim lists holds (key equality, two overlapping lot tokens, no declared
codes), yet the code does not suppress the record: `_agenda_fallback_match`
additionally requires both applicant keys to be non-empty. -/
theorem C5_counterexample :
    fallbackSpecPred exRowEmptyKey [exBlkEmptyKey] ∧
    exRowEmptyKey.sheet_u ∈ AGENDA_FILTER_SHEETS ∧
    agenda_fallback_match exRowEmptyKey (buildAgendaIndex [exBlkEmptyKey]) = false ∧
    keepRow exRowEmptyKey (buildAgendaIndex [exBlkEmptyKey]) = true := by
  simp only [fallbackSpecPred]
  decide

/-- Claim C7 counterexample: `(JLD. 2)` is a parenthetical volume note (JLD
abbreviates "jilid", volume) that the claim says the display formatter must
drop; the code preserves it verbatim (there is no note-dropping logic in
`format_fail_no_display`). -/
theorem C7_counterexample :
    format_fail_no_display "MBSP/15/U6/0295-PKM (JLD. 2)"
      = "MBSP/15/U6/0295-PKM (JLD. 2)" ∧
    containsSub "(JLD".data (format_fail_no_display "MBSP/15/U6/0295-PKM (JLD. 2)").data
      = true ∧
    format_fail_no_display "MBSP/15/U6/0295-PKM (JLD. 2)" ≠ "MBSP/15/U6/0295-PKM" := by
  decide

/-- Claim C8 counterexample: `MBPS/15/0120` and `M-B-P-S/15/0120` differ
only by inserted separator punctuation (their separator-and-whitespace-free
projections coincide), yet their matching keys differ: the legacy-prefix
rewrite recognises the transposed prefix only as plain `MBPS` or dotted
`M.B.P.S`, and runs before separators are removed. -/
theorem C8_counterexample :
    sepWsEq "MBPS/15/0120" "M-B-P-S/15/0120" ∧
    osc_norm "MBPS/15/0120" ≠ osc_norm "M-B-P-S/15/0120" := by
  simp only [sepWsEq]
  decide

/-- Claim C10 counterexample: `XVIII` is an all-capitals alphabetic token of
five letters covered by neither the corporate map nor the title map, yet
`format_pemohon_display` returns it unchanged instead of raising: the
roman-numeral branch runs before the undefined-name lookup. -/
theorem C10_counterexample :
    format_pemohon_display "XVIII" = Except.ok "XVIII" ∧
    "XVIII".data.all isUpperC = true ∧
    4 ≤ "XVIII".data.length ∧
    assocLookup "XVIII" CORP_TOKEN_MAP = none ∧
    assocLookup "XVIII" TITLE_MAP = none := by decide

/-- Claim C9 (confirmed): rows whose decision text is non-blank after
placeholder stripping are removed by the very first step of
`build_categories`, before agenda filtering, grouping or any date rule, and
regardless of every other field and parameter: the output only depends on
the rows whose decision is empty or a placeholder. -/
theorem C9_keputusan_gate (rows : List Row) (agenda : Option AgendaIndex)
    (kmS kmE utS utE : Date) (ue ae : Bool) :
    build_categories rows agenda kmS kmE utS utE ue ae =
      build_categories (rows.filter (fun r => keputusan_is_empty r.keputusan))
        agenda kmS kmE utS utE ue ae ∧
    keputusan_is_empty "-" = true ∧ keputusan_is_empty "LULUS" = false := by
  refine ⟨?_, by decide, by decide⟩
  simp only [build_categories, List.filter_filter, Bool.and_self]

/-- Claim C2 (confirmed): exempt (PTJ) blocks are parsed but contribute
nothing to any suppression tier.  The whole agenda-filtering decision
(`_keep`) computed on an index built from all blocks equals the decision on
an index built only from the non-exempt blocks; the three index sets contain
exactly the tails, series-tail keys and normalized head identifiers of
non-exempt blocks; and the fuzzy fallback yields the same verdict with the
exempt blocks removed.  Hence a record matching only exempt blocks is kept,
and a record matching an exempt and a non-exempt block is suppressed exactly
as by the non-exempt block alone. -/
theorem C2_exempt_blocks_never_suppress (row : Row) (blocks : List AgendaBlock) :
    (keepRow row (buildAgendaIndex blocks)
       = keepRow row (buildAgendaIndex (blocks.filter (fun b => !b.is_ptj)))) ∧
    (∀ t : String, t ∈ (buildAgendaIndex blocks).tails_all ↔
       ∃ b ∈ blocks, b.is_ptj = false ∧ t ∈ b.tails) ∧
    (∀ k : String, k ∈ (buildAgendaIndex blocks).series_tail_all ↔
       ∃ b ∈ blocks, b.is_ptj = false ∧ k ∈ b.series_tail_keys) ∧
    (∀ h : String, h ∈ (buildAgendaIndex blocks).osc_head_norm_all ↔
       ∃ b ∈ blocks, b.is_ptj = false ∧ h ∈ b.osc_heads.map osc_norm) ∧
    (agenda_fallback_match row (buildAgendaIndex blocks)
       = agenda_fallback_match row (buildAgendaIndex (blocks.filter (fun b => !b.is_ptj)))) := by
  have hfall : agenda_fallback_match row (buildAgendaIndex (blocks.filter (fun b => !b.is_ptj)))
      = agenda_fallback_match row (buildAgendaIndex blocks) := by
    unfold agenda_fallback_match buildAgendaIndex
    simp only [List.any_filter, ← Bool.and_assoc, Bool.and_self]
  refine ⟨?_, ?_, ?_, ?_, hfall.symm⟩
  · unfold keepRow
    rw [hfall]
    simp [buildAgendaIndex, List.filter_filter, Bool.and_self]
  · intro t; simp [buildAgendaIndex, List.mem_filter, and_assoc]
  · intro k; simp [buildAgendaIndex, List.mem_filter, and_assoc]
  · intro h; simp [buildAgendaIndex, List.mem_filter, and_assoc]

/-- The concrete agenda index used by the C5 witness. -/
def exIdx : AgendaIndex := buildAgendaIndex [exBlkEmptyKey]

/-- Claim C5 amended: for an agenda-filterable record, suppression happens
iff one of the three identifier tiers hits or the fuzzy fallback fires, and
the fallback fires iff some non-exempt block satisfies the claim's
conditions strengthened by one requirement the code imposes: the shared
normalized applicant key must also be non-empty. -/
theorem C5_amended_fallback_iff (row : Row) (idx : AgendaIndex)
    (hs : row.sheet_u ∈ AGENDA_FILTER_SHEETS) :
    (keepRow row idx = false ↔
       ((row.tail ≠ "" ∧ row.tail ∈ idx.tails_all) ∨
        (row.series_tail ≠ "" ∧ row.series_tail ∈ idx.series_tail_all) ∨
        (row.osc_head_norm ≠ "" ∧ row.osc_head_norm ∈ idx.osc_head_norm_all) ∨
        agenda_fallback_match row idx = true)) ∧
    (agenda_fallback_match row idx = true ↔
      ∃ b ∈ idx.blocks, b.is_ptj = false ∧
        row.pemohon_key ≠ "" ∧ row.pemohon_key = b.pemohon_key ∧
        interL row.lot_set b.lot_set ≠ [] ∧
        (2 ≤ min row.lot_set.length b.lot_set.length →
          2 ≤ (interL row.lot_set b.lot_set).length) ∧
        (b.codes ≠ [] → interL row.codes b.codes ≠ [])) := by
  have hc : AGENDA_FILTER_SHEETS.contains row.sheet_u = true := by simpa using hs
  constructor
  · unfold keepRow
    rw [hc]
    simp only [Bool.not_true, Bool.false_or]
    simp
    tauto
  · unfold agenda_fallback_match
    rw [hc, Bool.true_and]
    constructor
    · intro h
      rw [Bool.and_eq_true, Bool.and_eq_true] at h
      have hp := h.1.1
      have hany := h.2
      rw [List.any_eq_true] at hany
      obtain ⟨b, hb, hcond⟩ := hany
      have hpne : row.pemohon_key ≠ "" := by
        intro h0; rw [h0] at hp; simp at hp
      refine ⟨b, hb, ?_⟩
      obtain ⟨⟨⟨⟨⟨hA, hB⟩, hC⟩, hD⟩, hE⟩, hF, hG⟩ :=
        (by simpa only [Bool.and_eq_true] using hcond :
          ((((((!b.is_ptj) = true ∧ (!(b.pemohon_key == "")) = true) ∧
              (!b.lot_set.isEmpty) = true) ∧
              (b.codes.isEmpty || !(interL row.codes b.codes).isEmpty) = true) ∧
              (row.pemohon_key == b.pemohon_key) = true) ∧
              (!(interL row.lot_set b.lot_set).isEmpty) = true ∧
              (!(decide (2 ≤ min row.lot_set.length b.lot_set.length) &&
                 decide ((interL row.lot_set b.lot_set).length < 2))) = true))
      have hkey : row.pemohon_key = b.pemohon_key := by simpa using hE
      have hint : interL row.lot_set b.lot_set ≠ [] := by
        intro h0; rw [h0] at hF; simp at hF
      refine ⟨by simpa using hA, hpne, hkey, hint, ?_, ?_⟩
      · intro hm2
        rw [Nat.le_min] at hm2
        rcases (by simpa using hG : (row.lot_set.length < 2 ∨ b.lot_set.length < 2) ∨
            2 ≤ (interL row.lot_set b.lot_set).length) with h0 | h0
        · omega
        · exact h0
      · intro hcne
        rcases (by simpa using hD :
            b.codes.isEmpty = true ∨ (interL row.codes b.codes).isEmpty = false) with h0 | h0
        · rw [List.isEmpty_iff] at h0; exact absurd h0 hcne
        · intro h1; rw [h1] at h0; simp at h0
    · rintro ⟨b, hb, hptj, hpne, hkey, hint, hmin, hcode⟩
      have hbp : b.pemohon_key ≠ "" := hkey ▸ hpne
      have hbl : b.lot_set ≠ [] := by
        intro h0; exact hint (by simp [h0, interL])
      have hl : row.lot_set ≠ [] := by
        intro h0; exact hint (by simp [h0, interL])
      have e1 : (!(row.pemohon_key == "")) = true := by simp [hpne]
      have e2 : (!row.lot_set.isEmpty) = true := by
        cases h0 : row.lot_set with
        | nil => exact absurd h0 hl
        | cons x xs => rfl
      rw [e1, Bool.true_and, e2, Bool.true_and, List.any_eq_true]
      refine ⟨b, hb, ?_⟩
      have f1 : (!b.is_ptj) = true := by simp [hptj]
      have f2 : (!(b.pemohon_key == "")) = true := by simp [hbp]
      have f3 : (!b.lot_set.isEmpty) = true := by
        cases h0 : b.lot_set with
        | nil => exact absurd h0 hbl
        | cons x xs => rfl
      have f4 : (b.codes.isEmpty || !(interL row.codes b.codes).isEmpty) = true := by
        by_cases hce : b.codes = []
        · simp [hce]
        · have := hcode hce
          cases h0 : interL row.codes b.codes with
          | nil => exact absurd h0 this
          | cons x xs => simp
      have f5 : (row.pemohon_key == b.pemohon_key) = true := by simp [hkey]
      have f6 : (!(interL row.lot_set b.lot_set).isEmpty) = true := by
        cases h0 : interL row.lot_set b.lot_set with
        | nil => exact absurd h0 hint
        | cons x xs => rfl
      have f7 : (!(decide (2 ≤ min row.lot_set.length b.lot_set.length) &&
          decide ((interL row.lot_set b.lot_set).length < 2))) = true := by
        by_cases hm2 : 2 ≤ min row.lot_set.length b.lot_set.length
        · have := hmin hm2
          simp only [Bool.not_eq_true', Bool.and_eq_false_iff, decide_eq_false_iff_not]
          right; omega
        · simp only [Bool.not_eq_true', Bool.and_eq_false_iff, decide_eq_false_iff_not]
          left; omega
      rw [f1, Bool.true_and, f2, Bool.true_and, f3, Bool.true_and, f4, Bool.true_and,
        f5, Bool.true_and, f6, Bool.true_and, f7]

/-- Witness for `C5_amended_fallback_iff` at a concrete record and index. -/
theorem C5_amended_fallback_iff_witness :
    exRowEmptyKey.sheet_u ∈ AGENDA_FILTER_SHEETS ∧
    ((keepRow exRowEmptyKey exIdx = false ↔
       ((exRowEmptyKey.tail ≠ "" ∧ exRowEmptyKey.tail ∈ exIdx.tails_all) ∨
        (exRowEmptyKey.series_tail ≠ "" ∧
          exRowEmptyKey.series_tail ∈ exIdx.series_tail_all) ∨
        (exRowEmptyKey.osc_head_norm ≠ "" ∧
          exRowEmptyKey.osc_head_norm ∈ exIdx.osc_head_norm_all) ∨
        agenda_fallback_match exRowEmptyKey exIdx = true)) ∧
     (agenda_fallback_match exRowEmptyKey exIdx = true ↔
       ∃ b ∈ exIdx.blocks, b.is_ptj = false ∧
         exRowEmptyKey.pemohon_key ≠ "" ∧ exRowEmptyKey.pemohon_key = b.pemohon_key ∧
         interL exRowEmptyKey.lot_set b.lot_set ≠ [] ∧
         (2 ≤ min exRowEmptyKey.lot_set.length b.lot_set.length →
           2 ≤ (interL exRowEmptyKey.lot_set b.lot_set).length) ∧
         (b.codes ≠ [] → interL exRowEmptyKey.codes b.codes ≠ []))) :=
  ⟨by decide, C5_amended_fallback_iff exRowEmptyKey exIdx (by decide)⟩

/-! ## Whitespace-preservation lemmas for the display formatter -/

def nonWS (c : Char) : Bool := !isWS c

theorem filterWS_crToNl (l : List Char) :
    (crToNl l).filter nonWS = l.filter nonWS := by
  induction l with
  | nil => rfl
  | cons c r ih =>
    by_cases hc : c = '\r'
    · subst hc
      simp only [crToNl, List.map_cons, List.filter_cons] at *
      norm_num
      have h1 : nonWS '\n' = false := by decide
      have h2 : nonWS '\r' = false := by decide
      rw [h1, h2]
      simpa [crToNl] using ih
    · simp only [crToNl, List.map_cons, List.filter_cons, if_neg hc] at *
      have : (if c == '\r' then '\n' else c) = c := by simp [hc]
      rw [this]
      by_cases hw : nonWS c <;> simp [hw] <;> simpa using ih

theorem filterWS_stAux (b : Bool) (l : List Char) :
    (stAux b l).filter nonWS = l.filter nonWS := by
  induction l generalizing b with
  | nil => rfl
  | cons c r ih =>
    by_cases hs : c == ' ' || c == '\t'
    · have hw : nonWS c = false := by
        rcases Bool.or_eq_true _ _ |>.mp hs with h | h <;>
          · rw [eq_of_beq h]; decide
      cases b <;> simp [stAux, hs, List.filter_cons, hw, ih, show nonWS ' ' = false by decide]
    · have : stAux b (c :: r) = c :: stAux false r := by
        simp [stAux, hs]
      rw [this]
      simp [List.filter_cons, ih]

theorem filterWS_nlAux (k : Nat) (l : List Char) :
    (nlAux k l).filter nonWS = l.filter nonWS := by
  induction l generalizing k with
  | nil => rfl
  | cons c r ih =>
    by_cases hc : c == '\n'
    · rw [eq_of_beq hc]
      by_cases hk : 2 ≤ k <;>
        simp [nlAux, hk, List.filter_cons, show nonWS '\n' = false by decide, ih]
    · have : nlAux k (c :: r) = c :: nlAux 0 r := by simp [nlAux, hc]
      rw [this]
      simp [List.filter_cons, ih]

theorem filterWS_dropWhile (l : List Char) :
    (l.dropWhile isWS).filter nonWS = l.filter nonWS := by
  induction l with
  | nil => rfl
  | cons c r ih =>
    by_cases hw : isWS c
    · simp [List.dropWhile_cons, hw, ih, List.filter_cons, nonWS]
    · simp [List.dropWhile_cons, hw, List.filter_cons, nonWS]

theorem filterWS_pyStrip (l : List Char) :
    (pyStrip l).filter nonWS = l.filter nonWS := by
  unfold pyStrip dropWhileEnd
  rw [List.filter_reverse, filterWS_dropWhile, List.filter_reverse, List.reverse_reverse,
    filterWS_dropWhile]

theorem filterWS_delAfterAux (t : Char) (b : Bool) (l : List Char) :
    (delAfterAux t b l).filter nonWS = l.filter nonWS := by
  induction l generalizing b with
  | nil => rfl
  | cons c r ih =>
    by_cases hw : isWS c
    · have hnw : nonWS c = false := by simp [nonWS, hw]
      cases b <;> simp [delAfterAux, hw, List.filter_cons, hnw, ih]
    · have hnw : nonWS c = true := by simp [nonWS, hw]
      simp [delAfterAux, hw, List.filter_cons, hnw, ih]

theorem filterWS_delWSAdj (t : Char) (l : List Char) :
    (delWSAdj t l).filter nonWS = l.filter nonWS := by
  unfold delWSAdj
  rw [List.filter_reverse, filterWS_delAfterAux, List.filter_reverse,
    filterWS_delAfterAux, List.reverse_reverse]

theorem filterWS_plusStage (l : List Char) :
    (plusStage l).filter nonWS = l.filter nonWS := by
  unfold plusStage
  rw [← filterWS_delWSAdj '+' l]
  generalize delWSAdj '+' l = m
  induction m with
  | nil => rfl
  | cons c r ih =>
    by_cases hc : c == '+'
    · rw [eq_of_beq hc]
      simp only [List.flatMap_cons, List.filter_append, List.filter_cons]
      norm_num
      simpa [show (" + ".data.filter nonWS) = ['+'] by decide,
        show nonWS '+' = true by decide] using ih
    · simp only [List.flatMap_cons, List.filter_append, List.filter_cons, hc]
      simp only [Bool.false_eq_true, if_false]
      by_cases hw : nonWS c <;> simp [hw] <;> simpa using ih

theorem filterWS_sp2Aux (b : Bool) (l : List Char) :
    (sp2Aux b l).filter nonWS = l.filter nonWS := by
  induction l generalizing b with
  | nil => rfl
  | cons c r ih =>
    by_cases hs : c == ' '
    · rw [eq_of_beq hs]
      cases b <;> simp [sp2Aux, List.filter_cons, show nonWS ' ' = false by decide, ih]
    · have : sp2Aux b (c :: r) = c :: sp2Aux false r := by simp [sp2Aux, hs]
      rw [this]
      simp [List.filter_cons, ih]

/-- Claim C7 amended: after the legacy-prefix normalization of the stripped
input, the display formatter changes only whitespace: the subsequence of
non-whitespace characters of the output equals that of the prefix-normalized
input, so no parenthetical note (voided/superseded or otherwise) is ever
dropped, nothing is reordered, and repeated plus separators survive.  The
two closing conjuncts exhibit a preserved permit-sub-type note `(TG)` and a
preserved volume note `(JLD. 2)` verbatim. -/
theorem C7_amended_display (s : String) (h : is_blankish_text s = false) :
    ((format_fail_no_display s).data.filter nonWS
      = (legacyPrefSubs (pyStrip s.data)).filter nonWS) ∧
    format_fail_no_display "MBSP/15/U6-2601/0295-PKM PIN.(TG)"
      = "MBSP/15/U6-2601/0295-PKM PIN.(TG)" ∧
    format_fail_no_display "A ++ B" = "A + + B" := by
  refine ⟨?_, by decide, by decide⟩
  unfold format_fail_no_display
  rw [h]
  simp only [Bool.false_eq_true, if_false]
  rw [filterWS_pyStrip, filterWS_sp2Aux, filterWS_plusStage, filterWS_delWSAdj,
    filterWS_delWSAdj, filterWS_pyStrip, filterWS_nlAux, filterWS_stAux, filterWS_crToNl]

/-- Witness for `C7_amended_display` at a concrete reference string. -/
theorem C7_amended_display_witness :
    is_blankish_text "MBSP/1 (TG)" = false ∧
    (((format_fail_no_display "MBSP/1 (TG)").data.filter nonWS
        = (legacyPrefSubs (pyStrip "MBSP/1 (TG)".data)).filter nonWS) ∧
     format_fail_no_display "MBSP/15/U6-2601/0295-PKM PIN.(TG)"
       = "MBSP/15/U6-2601/0295-PKM PIN.(TG)" ∧
     format_fail_no_display "A ++ B" = "A + + B") :=
  ⟨by decide, C7_amended_display "MBSP/1 (TG)" (by decide)⟩

/-! ## Character-case lemmas and the C8 development -/

theorem charOfNat_toNat {n : Nat} (h : n < 55296) : (Char.ofNat n).toNat = n := by
  have hv : n.isValidChar := Or.inl h
  simp [Char.ofNat, Char.ofNatAux, hv, Char.toNat, UInt32.toNat, UInt32.ofNatCore]

theorem toNat_lowUp (c : Char) :
    (charLow (charUp c)).toNat =
      if 65 ≤ c.toNat ∧ c.toNat ≤ 90 then c.toNat + 32 else c.toNat := by
  unfold charUp charLow
  split
  · rename_i h1
    have e1 : (Char.ofNat (c.toNat - 32)).toNat = c.toNat - 32 := charOfNat_toNat (by omega)
    rw [e1]
    split
    · rename_i h2
      rw [charOfNat_toNat (by omega)]
      rw [if_neg (by omega)]
      omega
    · rename_i h2
      omega
  · rename_i h1
    split
    · rename_i h2
      rw [charOfNat_toNat (by omega)]
    · rfl

theorem isWS_lowUp (c : Char) : isWS (charLow (charUp c)) = isWS c := by
  unfold isWS
  rw [toNat_lowUp]
  split
  · rename_i h
    have hall : ∀ u : Nat, 65 ≤ u → u ≤ 122 →
        (u == 32 || u == 9 || u == 10 || u == 13 || u == 11 || u == 12) = false := by
      intro u h1 h2
      simp only [Bool.or_eq_false_iff, beq_eq_false_iff_ne, ne_eq]
      omega
    rw [hall _ (by omega) (by omega), hall _ (by omega) (by omega)]
  · rfl

theorem isSepOsc_lowUp (c : Char) : isSepOsc (charLow (charUp c)) = isSepOsc c := by
  unfold isSepOsc
  rw [toNat_lowUp]
  split
  · rename_i h
    have hall : ∀ u : Nat, 65 ≤ u → u ≤ 122 → ¬(91 ≤ u ∧ u ≤ 93) →
        (u == 45 || u == 47 || u == 92 || u == 40 || u == 41 || u == 91 || u == 93 ||
         u == 123 || u == 125 || u == 43 || u == 46 || u == 44 || u == 58 || u == 59)
          = false := by
      intro u h1 h2 h3
      simp only [Bool.or_eq_false_iff, beq_eq_false_iff_ne, ne_eq]
      omega
    rw [hall _ (by omega) (by omega) (by omega), hall _ (by omega) (by omega) (by omega)]
  · rfl

theorem strData_append (s t : String) : (s ++ t).data = s.data ++ t.data := by
  cases s; cases t; rfl

theorem mkData (l : List Char) : (String.mk l).data = l := rfl

/-- The body transformation `osc_norm` applies after the prefix: keep the
non-separator non-whitespace characters and lower-case them. -/
theorem tailTransform (z : List Char) :
    (((((z.filter nonWS).map charUp).map charLow).filter nonWS).filter
        (fun c => !isSepOsc c))
      = (z.filter keepCh).map (fun c => charLow (charUp c)) := by
  rw [List.map_map, List.filter_filter, List.filter_map, List.filter_filter]
  refine List.filter_congr ?_ ▸ rfl
  intro c hc
  show keepCh c = (((fun a => !isSepOsc a && nonWS a) ∘ charLow ∘ charUp) c && nonWS c)
  simp only [Function.comp_apply]
  rw [isSepOsc_lowUp]
  rw [show nonWS (charLow (charUp c)) = nonWS c by
    simp only [nonWS]; rw [isWS_lowUp]]
  simp only [keepCh, nonWS]
  by_cases h1 : isSepOsc c <;> by_cases h2 : isWS c <;> simp [h1, h2]

/-- `osc_norm` of a legacy-prefixed reference splits into the canonical
lower-case prefix plus the transformed body. -/
theorem osc_norm_split (p : String) (hp : p ∈ LEGACY_SPELLINGS) (b : String) :
    osc_norm (p ++ b) =
      String.mk ("mbsp".data ++ (b.data.filter keepCh).map (fun c => charLow (charUp c))) := by
  have hmem : p = "MBSP" ∨ p = "MBPS" ∨ p = "MPSP" ∨ p = "M.B.S.P" ∨ p = "M.B.P.S" := by
    simpa [LEGACY_SPELLINGS] using hp
  have hpref : ∀ x, legacyPrefSubs (p.data ++ x) = "MBSP".data ++ x := by
    rcases hmem with rfl | rfl | rfl | rfl | rfl <;> exact fun x => rfl
  have hpws : p.data.filter nonWS = p.data := by
    rcases hmem with rfl | rfl | rfl | rfl | rfl <;> rfl
  simp only [osc_norm, normalize_osc_pref, mkData]
  rw [strData_append]
  rw [show removeWS (pyStrip (p.data ++ b.data)) = (p.data ++ b.data).filter nonWS from
    filterWS_pyStrip _]
  rw [List.filter_append, hpws, hpref]
  simp only [upperL, lowerL, removeWS]
  rw [List.map_append, List.map_append, List.filter_append, List.filter_append]
  rw [show ((("MBSP".data.map charUp).map charLow).filter (fun c => !isWS c)).filter
      (fun c => !isSepOsc c) = "mbsp".data from rfl]
  rw [show (((b.data.filter nonWS).map charUp).map charLow).filter (fun c => !isWS c)
      = (((b.data.filter nonWS).map charUp).map charLow).filter nonWS from rfl]
  rw [tailTransform]

/-- Claim C8 amended: the matching keys of two references agree whenever
each consists of one of the five legacy prefix spellings followed by bodies
that differ only in separator punctuation or whitespace.  (Separator changes
inside a transposed prefix, as in the counterexample, are outside this
relation.) -/
theorem C8_amended_norm_invariance (p q b c : String)
    (hp : p ∈ LEGACY_SPELLINGS) (hq : q ∈ LEGACY_SPELLINGS)
    (hbc : sepWsEq b c) :
    osc_norm (p ++ b) = osc_norm (q ++ c) := by
  rw [osc_norm_split p hp b, osc_norm_split q hq c]
  unfold sepWsEq at hbc
  rw [hbc]

/-- Witness for `C8_amended_norm_invariance` on two concretely different
spellings of one reference. -/
theorem C8_amended_norm_invariance_witness :
    "MBPS" ∈ LEGACY_SPELLINGS ∧ "M.B.S.P" ∈ LEGACY_SPELLINGS ∧
    sepWsEq "/15/U24 - 2511" "-15-U24-2511" ∧
    osc_norm ("MBPS" ++ "/15/U24 - 2511") = osc_norm ("M.B.S.P" ++ "-15-U24-2511") :=
  ⟨by decide, by decide, by (simp only [sepWsEq]; decide),
   C8_amended_norm_invariance "MBPS" "M.B.S.P" "/15/U24 - 2511" "-15-U24-2511"
     (by decide) (by decide) (by (simp only [sepWsEq]; decide))⟩

/-- The three comparator laws needed for sortedness of the stable sort. -/
structure CmpLaws (cmp : α → α → Ordering) : Prop where
  swap : ∀ a b, cmp b a = (cmp a b).swap
  ltTrans : ∀ a b c, cmp a b = .lt → cmp b c = .lt → cmp a c = .lt
  eqIff : ∀ a b, cmp a b = .eq ↔ a = b

theorem natCmp_lt_iff (a b : Nat) : natCmp a b = .lt ↔ a < b := by
  unfold natCmp; split
  · simp_all
  · split <;> simp_all <;> omega

theorem natCmp_eq_iff (a b : Nat) : natCmp a b = .eq ↔ a = b := by
  unfold natCmp; split
  · simp_all; omega
  · split <;> simp_all <;> omega

theorem natCmp_laws : CmpLaws natCmp := by
  constructor
  · intro a b; unfold natCmp; split <;> split <;> simp_all [Ordering.swap] <;> omega
  · intro a b c h1 h2
    rw [natCmp_lt_iff] at *
    omega
  · exact natCmp_eq_iff

theorem charCmp_laws : CmpLaws charCmp := by
  refine ⟨fun a b => natCmp_laws.swap _ _, fun a b c => natCmp_laws.ltTrans _ _ _, ?_⟩
  intro a b
  unfold charCmp
  rw [natCmp_eq_iff]
  constructor
  · intro h
    rw [← Char.ofNat_toNat a, h, Char.ofNat_toNat]
  · intro h; rw [h]

theorem clCmp_laws : CmpLaws clCmp := by
  refine ⟨?_, ?_, ?_⟩
  · intro a b
    induction a generalizing b with
    | nil => cases b <;> rfl
    | cons x xs ih =>
      cases b with
      | nil => rfl
      | cons y ys =>
        simp only [clCmp]
        rw [charCmp_laws.swap x y]
        cases h : charCmp x y <;> simp [Ordering.swap, ih]
  · intro a b c h1 h2
    induction a generalizing b c with
    | nil =>
      cases b with
      | nil => simpa using h2
      | cons y ys =>
        cases c with
        | nil => simp [clCmp] at h2
        | cons z zs => rfl
    | cons x xs ih =>
      cases b with
      | nil => simp [clCmp] at h1
      | cons y ys =>
        cases c with
        | nil => simp [clCmp] at h2
        | cons z zs =>
          simp only [clCmp] at h1 h2 ⊢
          cases hxy : charCmp x y <;> rw [hxy] at h1
          · cases hyz : charCmp y z <;> rw [hyz] at h2
            · rw [charCmp_laws.ltTrans x y z hxy hyz]
            · rw [← (charCmp_laws.eqIff y z).mp hyz, hxy]
            · exact absurd h2 (by simp)
          · cases hyz : charCmp y z <;> rw [hyz] at h2
            · rw [(charCmp_laws.eqIff x y).mp hxy, hyz]
            · rw [(charCmp_laws.eqIff x y).mp hxy, hyz]
              exact ih ys zs h1 h2
            · exact absurd h2 (by simp)
          · exact absurd h1 (by simp)
  · intro a b
    induction a generalizing b with
    | nil => cases b <;> simp [clCmp]
    | cons x xs ih =>
      cases b with
      | nil => simp [clCmp]
      | cons y ys =>
        simp only [clCmp]
        cases hxy : charCmp x y
        · constructor
          · intro h; exact absurd h (by simp)
          · intro h
            injection h with h1 h2
            rw [h1, (charCmp_laws.eqIff y y).mpr rfl] at hxy
            exact absurd hxy (by simp)
        · rw [(charCmp_laws.eqIff x y).mp hxy, ih]
          constructor
          · intro h; rw [h]
          · intro h; injection h
        · constructor
          · intro h; exact absurd h (by simp)
          · intro h
            injection h with h1 h2
            rw [h1, (charCmp_laws.eqIff y y).mpr rfl] at hxy
            exact absurd hxy (by simp)

def pairCmp (ca : α → α → Ordering) (cb : β → β → Ordering) (x y : α × β) : Ordering :=
  ordThen (ca x.1 y.1) (cb x.2 y.2)

theorem ordThen_swap (o1 o2 : Ordering) :
    ordThen o1.swap o2.swap = (ordThen o1 o2).swap := by
  cases o1 <;> rfl

theorem pairCmp_laws (ca : α → α → Ordering) (cb : β → β → Ordering)
    (ha : CmpLaws ca) (hb : CmpLaws cb) : CmpLaws (pairCmp ca cb) := by
  refine ⟨?_, ?_, ?_⟩
  · intro x y
    unfold pairCmp
    rw [ha.swap, hb.swap, ordThen_swap]
  · intro x y z h1 h2
    unfold pairCmp ordThen at *
    cases hxy : ca x.1 y.1 <;> rw [hxy] at h1
    · cases hyz : ca y.1 z.1 <;> rw [hyz] at h2
      · rw [ha.ltTrans _ _ _ hxy hyz]
      · rw [← (ha.eqIff _ _).mp hyz, hxy]
      · exact absurd h2 (by simp)
    · cases hyz : ca y.1 z.1 <;> rw [hyz] at h2
      · rw [(ha.eqIff _ _).mp hxy, hyz]
      · rw [(ha.eqIff _ _).mp hxy, hyz]
        exact hb.ltTrans _ _ _ h1 h2
      · exact absurd h2 (by simp)
    · exact absurd h1 (by simp)
  · intro x y
    unfold pairCmp ordThen
    cases hxy : ca x.1 y.1
    · constructor
      · intro h; exact absurd h (by simp)
      · intro h
        rw [h, (ha.eqIff _ _).mpr rfl] at hxy
        exact absurd hxy (by simp)
    · rw [hb.eqIff]
      constructor
      · intro h
        have h1 := (ha.eqIff _ _).mp hxy
        exact Prod.ext h1 h
      · intro h; rw [h]
    · constructor
      · intro h; exact absurd h (by simp)
      · intro h
        rw [h, (ha.eqIff _ _).mpr rfl] at hxy
        exact absurd hxy (by simp)

theorem cmpToLe_total (cmp : α → α → Ordering) (h : CmpLaws cmp) (a b : α) :
    cmpToLe cmp a b = true ∨ cmpToLe cmp b a = true := by
  unfold cmpToLe
  rw [h.swap a b]
  cases cmp a b <;> simp [Ordering.swap]

theorem cmpToLe_trans (cmp : α → α → Ordering) (h : CmpLaws cmp) (a b c : α)
    (h1 : cmpToLe cmp a b = true) (h2 : cmpToLe cmp b c = true) :
    cmpToLe cmp a c = true := by
  unfold cmpToLe at *
  cases hab : cmp a b <;> rw [hab] at h1
  · cases hbc : cmp b c <;> rw [hbc] at h2
    · rw [h.ltTrans _ _ _ hab hbc]
    · rw [← (h.eqIff _ _).mp hbc, hab]
    · exact absurd h2 (by simp)
  · cases hbc : cmp b c <;> rw [hbc] at h2
    · rw [(h.eqIff _ _).mp hab, hbc]
    · rw [(h.eqIff _ _).mp hab, hbc]
    · exact absurd h2 (by simp)
  · exact absurd h1 (by simp)

theorem mem_ordInsert (le : α → α → Bool) (a x : α) (l : List α) :
    x ∈ ordInsert le a l ↔ x = a ∨ x ∈ l := by
  induction l with
  | nil => simp [ordInsert]
  | cons b t ih =>
    unfold ordInsert
    split
    · simp [List.mem_cons]
      try tauto
    · simp only [List.mem_cons, ih]
      try tauto

theorem pairwise_ordInsert (le : α → α → Bool)
    (htot : ∀ a b, le a b = true ∨ le b a = true)
    (htr : ∀ a b c, le a b = true → le b c = true → le a c = true)
    (a : α) (l : List α) (h : l.Pairwise (fun x y => le x y = true)) :
    (ordInsert le a l).Pairwise (fun x y => le x y = true) := by
  induction l with
  | nil => simp [ordInsert]
  | cons b t ih =>
    unfold ordInsert
    split
    · rename_i hab
      refine List.Pairwise.cons ?_ h
      intro y hy
      rcases List.mem_cons.mp hy with rfl | hyt
      · exact hab
      · exact htr _ _ _ hab (List.rel_of_pairwise_cons h hyt)
    · rename_i hab
      have hba : le b a = true := by
        rcases htot a b with h1 | h1
        · exact absurd h1 hab
        · exact h1
      refine List.Pairwise.cons ?_ (ih (List.Pairwise.of_cons h))
      intro y hy
      rcases (mem_ordInsert le a y t).mp hy with rfl | hyt
      · exact hba
      · exact List.rel_of_pairwise_cons h hyt

theorem pairwise_isort (le : α → α → Bool)
    (htot : ∀ a b, le a b = true ∨ le b a = true)
    (htr : ∀ a b c, le a b = true → le b c = true → le a c = true)
    (l : List α) : (isort le l).Pairwise (fun x y => le x y = true) := by
  induction l with
  | nil => simp [isort]
  | cons a t ih =>
    exact pairwise_ordInsert le htot htr a (isort le t) ih

def cat1Key (r : CategoryRecord) : Nat × Nat × List Char :=
  ((if strStarts "Pengarah Perancang" r.tindakan then 0 else 1),
   daerahRank r.daerah, r.fail_no.data)

def cat2Key (r : CategoryRecord) : Nat × List Char × List Char :=
  (daerahRank r.daerah, r.fail_no.data, r.tindakan.data)

def cat345Key (r : CategoryRecord) : Nat × List Char :=
  (daerahRank r.daerah, r.fail_no.data)

theorem cat1Cmp_eq_key :
    cat1Cmp = fun a b => pairCmp natCmp (pairCmp natCmp clCmp) (cat1Key a) (cat1Key b) := rfl

theorem cat2Cmp_eq_key :
    cat2Cmp = fun a b => pairCmp natCmp (pairCmp clCmp clCmp) (cat2Key a) (cat2Key b) := rfl

theorem cat345Cmp_eq_key :
    cat345Cmp = fun a b => pairCmp natCmp clCmp (cat345Key a) (cat345Key b) := rfl

theorem mem_assignBil (x : CategoryRecord) :
    ∀ (n : Nat) (l : List CategoryRecord), x ∈ assignBil n l →
      ∃ r ∈ l, ∃ k, x = { r with bil := k } := by
  intro n l
  induction l generalizing n with
  | nil => intro h; simp [assignBil] at h
  | cons r t ih =>
    intro h
    unfold assignBil at h
    rcases List.mem_cons.mp h with rfl | ht
    · exact ⟨r, List.mem_cons_self .., n, rfl⟩
    · obtain ⟨r2, hr2, k, hk⟩ := ih (n + 1) ht
      exact ⟨r2, List.mem_cons_of_mem _ hr2, k, hk⟩

theorem pairwise_assignBil (R : CategoryRecord → CategoryRecord → Prop)
    (hR : ∀ a b j k, R a b → R { a with bil := j } { b with bil := k })
    (n : Nat) (l : List CategoryRecord) (h : l.Pairwise R) :
    (assignBil n l).Pairwise R := by
  induction l generalizing n with
  | nil => simp [assignBil]
  | cons r t ih =>
    unfold assignBil
    refine List.Pairwise.cons ?_ (ih (n + 1) (List.Pairwise.of_cons h))
    intro y hy
    obtain ⟨r2, hr2, k, hk⟩ := mem_assignBil y (n + 1) t hy
    rw [hk]
    exact hR r r2 n k (List.rel_of_pairwise_cons h hr2)

theorem cmpToLe_bil (cmp : CategoryRecord → CategoryRecord → Ordering)
    (hbil : ∀ (a b : CategoryRecord) (j k : Nat),
      cmp { a with bil := j } { b with bil := k } = cmp a b)
    (a b : CategoryRecord) (j k : Nat) (h : cmpToLe cmp a b = true) :
    cmpToLe cmp { a with bil := j } { b with bil := k } = true := by
  unfold cmpToLe at *
  rw [hbil]
  exact h

theorem pairwise_finalize (cmp : CategoryRecord → CategoryRecord → Ordering)
    (htot : ∀ a b, cmpToLe cmp a b = true ∨ cmpToLe cmp b a = true)
    (htr : ∀ a b c, cmpToLe cmp a b = true → cmpToLe cmp b c = true →
      cmpToLe cmp a c = true)
    (hbil : ∀ (a b : CategoryRecord) (j k : Nat),
      cmp { a with bil := j } { b with bil := k } = cmp a b)
    (l : List CategoryRecord) :
    (assignBil 1 (isort (cmpToLe cmp) l)).Pairwise (fun a b => cmpToLe cmp a b = true) :=
  pairwise_assignBil _ (fun a b j k h => cmpToLe_bil cmp hbil a b j k h) 1 _
    (pairwise_isort _ htot htr l)

/-- Claim C4 amended: every final category list is sorted by its code's
actual key.  Category 1: department label first (labels starting with
"Pengarah Perancang" rank before the rest), then district rank
(SPU, SPS, SPT, unknown last), then display reference.  Category 2:
district rank, then display reference, then department label.
Categories 3-5: district rank, then display reference. -/
theorem C4_amended_sort_order (rows : List Row) (agenda : Option AgendaIndex)
    (kmS kmE utS utE : Date) (ue ae : Bool) :
    ((build_categories rows agenda kmS kmE utS utE ue ae).c1.Pairwise
       (fun a b => cmpToLe cat1Cmp a b = true)) ∧
    ((build_categories rows agenda kmS kmE utS utE ue ae).c2.Pairwise
       (fun a b => cmpToLe cat2Cmp a b = true)) ∧
    ((build_categories rows agenda kmS kmE utS utE ue ae).c3.Pairwise
       (fun a b => cmpToLe cat345Cmp a b = true)) ∧
    ((build_categories rows agenda kmS kmE utS utE ue ae).c4.Pairwise
       (fun a b => cmpToLe cat345Cmp a b = true)) ∧
    ((build_categories rows agenda kmS kmE utS utE ue ae).c5.Pairwise
       (fun a b => cmpToLe cat345Cmp a b = true)) := by
  have laws1 : CmpLaws (pairCmp natCmp (pairCmp natCmp clCmp)) :=
    pairCmp_laws _ _ natCmp_laws (pairCmp_laws _ _ natCmp_laws clCmp_laws)
  have laws2 : CmpLaws (pairCmp natCmp (pairCmp clCmp clCmp)) :=
    pairCmp_laws _ _ natCmp_laws (pairCmp_laws _ _ clCmp_laws clCmp_laws)
  have laws3 : CmpLaws (pairCmp natCmp clCmp) :=
    pairCmp_laws _ _ natCmp_laws clCmp_laws
  have tot1 : ∀ a b : CategoryRecord, cmpToLe cat1Cmp a b = true ∨ cmpToLe cat1Cmp b a = true :=
    fun a b => cmpToLe_total _ laws1 (cat1Key a) (cat1Key b)
  have tr1 : ∀ a b c : CategoryRecord, cmpToLe cat1Cmp a b = true →
      cmpToLe cat1Cmp b c = true → cmpToLe cat1Cmp a c = true :=
    fun a b c => cmpToLe_trans _ laws1 (cat1Key a) (cat1Key b) (cat1Key c)
  have tot2 : ∀ a b : CategoryRecord, cmpToLe cat2Cmp a b = true ∨ cmpToLe cat2Cmp b a = true :=
    fun a b => cmpToLe_total _ laws2 (cat2Key a) (cat2Key b)
  have tr2 : ∀ a b c : CategoryRecord, cmpToLe cat2Cmp a b = true →
      cmpToLe cat2Cmp b c = true → cmpToLe cat2Cmp a c = true :=
    fun a b c => cmpToLe_trans _ laws2 (cat2Key a) (cat2Key b) (cat2Key c)
  have tot3 : ∀ a b : CategoryRecord,
      cmpToLe cat345Cmp a b = true ∨ cmpToLe cat345Cmp b a = true :=
    fun a b => cmpToLe_total _ laws3 (cat345Key a) (cat345Key b)
  have tr3 : ∀ a b c : CategoryRecord, cmpToLe cat345Cmp a b = true →
      cmpToLe cat345Cmp b c = true → cmpToLe cat345Cmp a c = true :=
    fun a b c => cmpToLe_trans _ laws3 (cat345Key a) (cat345Key b) (cat345Key c)
  exact ⟨pairwise_finalize cat1Cmp tot1 tr1 (fun a b j k => rfl) _,
    pairwise_finalize cat2Cmp tot2 tr2 (fun a b j k => rfl) _,
    pairwise_finalize cat345Cmp tot3 tr3 (fun a b j k => rfl) _,
    pairwise_finalize cat345Cmp tot3 tr3 (fun a b j k => rfl) _,
    pairwise_finalize cat345Cmp tot3 tr3 (fun a b j k => rfl) _⟩

theorem upper_not_pyLower (c : Char) (h : isUpperC c = true) : pyIsLower c = false := by
  unfold isUpperC at h
  unfold pyIsLower isLowerC
  simp only [Bool.and_eq_true, decide_eq_true_eq, Nat.le_refl] at h ⊢
  simp only [Bool.or_eq_false_iff, Bool.and_eq_false_iff]
  constructor
  · simp only [Bool.and_eq_false_iff, decide_eq_false_iff_not]
    omega
  · left
    simp only [decide_eq_false_iff_not]
    omega

theorem charUp_of_upper (c : Char) (h : isUpperC c = true) : charUp c = c := by
  unfold isUpperC at h
  simp only [Bool.and_eq_true, decide_eq_true_eq] at h
  unfold charUp
  rw [if_neg (by omega)]

theorem map_self (f : Char → Char) (l : List Char) (h : ∀ c ∈ l, f c = c) :
    l.map f = l := by
  induction l with
  | nil => rfl
  | cons c r ih =>
    simp only [List.map_cons, h c (List.mem_cons_self ..), ih (fun x hx => h x (List.mem_cons_of_mem _ hx))]

theorem containsSub_head_mem (c : Char) (p l : List Char)
    (h : containsSub (c :: p) l = true) : c ∈ l := by
  induction l with
  | nil => simp [containsSub, isPref] at h
  | cons x xs ih =>
    unfold containsSub at h
    rcases Bool.or_eq_true _ _ |>.mp h with h1 | h1
    · unfold isPref at h1
      rcases Bool.and_eq_true _ _ |>.mp h1 with ⟨h2, _⟩
      rw [eq_of_beq h2]
      exact List.mem_cons_self ..
    · exact List.mem_cons_of_mem _ (ih h1)

theorem formatSimpleToken_error (tok : List Char)
    (hup : tok.all isUpperC = true) (hlen : 4 ≤ tok.length)
    (hcorp : assocLookup (String.mk tok) CORP_TOKEN_MAP = none)
    (htitle : assocLookup (String.mk tok) TITLE_MAP = none)
    (hrom : ROMAN_SET.contains (String.mk (lowerL tok)) = false) :
    formatSimpleToken tok = .error () := by
  have hne : tok ≠ [] := by
    intro h0; rw [h0] at hlen; simp at hlen
  have hallup : ∀ c ∈ tok, isUpperC c = true := List.all_eq_true.mp hup
  have hmixed : tok.any pyIsLower = false := by
    rw [List.any_eq_false]
    intro c hc
    rw [upper_not_pyLower c (hallup c hc)]
    simp
  have hupperL : upperL tok = tok :=
    map_self charUp tok (fun c hc => charUp_of_upper c (hallup c hc))
  have hclean : tok.filter (fun c => isUpperC c || isDigitC c) = tok :=
    List.filter_eq_self.mpr (fun c hc => by rw [hallup c hc]; simp)
  have hat : containsSub "@".data tok = false := by
    rcases Bool.eq_false_or_eq_true (containsSub "@".data tok) with h1 | h1
    · have hm := containsSub_head_mem '@' [] tok h1
      have := hallup _ hm
      simp [isUpperC] at this
    · exact h1
  have hurl : containsSub "://".data tok = false := by
    rcases Bool.eq_false_or_eq_true (containsSub "://".data tok) with h1 | h1
    · have hm := containsSub_head_mem ':' "//".data tok h1
      have := hallup _ hm
      simp [isUpperC] at this
    · exact h1
  have hdig : tok.all isDigitC = false := by
    cases tok with
    | nil => exact absurd rfl hne
    | cons c r =>
      have := hallup c (List.mem_cons_self ..)
      simp only [List.all_cons, Bool.and_eq_false_iff]
      left
      simp [isUpperC] at this
      simp [isDigitC]
      omega
  simp only [formatSimpleToken]
  rw [if_neg (by simp [hne])]
  rw [if_neg (by rw [hmixed]; simp)]
  rw [hupperL, hclean]
  rw [if_neg (by rw [hat, hurl]; simp)]
  rw [if_neg (by rw [hdig]; simp)]
  rw [if_neg (by rw [hrom]; simp)]
  rw [hcorp, htitle]

theorem fmtLineAux_error (pairs : List (List Char × List Char))
    (h : ∃ pr ∈ pairs, formatSimpleToken pr.2 = .error ()) :
    fmtLineAux pairs = .error () := by
  induction pairs with
  | nil => simp at h
  | cons pr rest ih =>
    obtain ⟨q, hq, hqerr⟩ := h
    rcases List.mem_cons.mp hq with rfl | hqr
    · unfold fmtLineAux
      obtain ⟨g, t⟩ := q
      rw [hqerr]
      rfl
    · unfold fmtLineAux
      obtain ⟨g, t⟩ := pr
      cases hft : formatSimpleToken t with
      | error e => cases e; rfl
      | ok v =>
        rw [ih ⟨q, hqr, hqerr⟩]
        rfl

theorem fmtLine_error (line : List Char)
    (h : ∃ pr ∈ (wordIter (pyStrip line)).1, formatSimpleToken pr.2 = .error ()) :
    fmtLine line = .error () := by
  have herr := fmtLineAux_error _ h
  simp only [fmtLine]
  rcases hwi : wordIter (pyStrip line) with ⟨pairs, trail⟩
  rw [hwi] at herr
  simp only at herr
  rw [herr]
  rfl

theorem exMapM_error (f : α → Except Unit β) (l : List α)
    (h : ∃ a ∈ l, f a = .error ()) : exMapM f l = .error () := by
  induction l with
  | nil => simp at h
  | cons a rest ih =>
    obtain ⟨x, hx, hxe⟩ := h
    rcases List.mem_cons.mp hx with rfl | hxr
    · unfold exMapM
      rw [hxe]
      rfl
    · unfold exMapM
      cases hfa : f a with
      | error e => cases e; rfl
      | ok v =>
        rw [ih ⟨x, hxr, hxe⟩]
        rfl

/-- Claim C10 amended: `format_pemohon_display` raises `NameError`
(modelled as `Except.error`) on every non-blank input containing an
all-capitals alphabetic token of at least four letters that is covered by
neither the corporate map, the title map, nor the built-in roman-numeral
set (the roman exception is what the counterexample forces); and
`format_lot_display` raises on every non-blank lot string, because both
reach names that are never defined in the module. -/
theorem C10_amended_name_errors :
    (∀ (name : String) (tok : List Char),
      is_blankish_text name = false →
      tok ∈ pemohonTokens name →
      tok.all isUpperC = true → 4 ≤ tok.length →
      assocLookup (String.mk tok) CORP_TOKEN_MAP = none →
      assocLookup (String.mk tok) TITLE_MAP = none →
      ROMAN_SET.contains (String.mk (lowerL tok)) = false →
      format_pemohon_display name = .error ()) ∧
    (∀ s : String, is_blankish_text s = false → format_lot_display s = .error ()) := by
  constructor
  · intro name tok hblank htok hup hlen hcorp htitle hrom
    unfold format_pemohon_display
    rw [hblank]
    simp only [Bool.false_eq_true, if_false]
    unfold pemohonTokens at htok
    rw [List.mem_flatMap] at htok
    obtain ⟨ln, hln, htok2⟩ := htok
    rw [List.mem_map] at htok2
    obtain ⟨pr, hpr, hpr2⟩ := htok2
    have herr : fmtLine ln = .error () := by
      apply fmtLine_error
      refine ⟨pr, hpr, ?_⟩
      rw [hpr2]
      exact formatSimpleToken_error tok hup hlen hcorp htitle hrom
    rw [exMapM_error fmtLine _ ⟨ln, hln, herr⟩]
  · intro s h
    unfold format_lot_display
    rw [h]
    simp

/-- Witness for `C10_amended_name_errors` at the concrete inputs `PULAU`
and `Lot 123`. -/
theorem C10_amended_name_errors_witness :
    is_blankish_text "PULAU" = false ∧
    "PULAU".data ∈ pemohonTokens "PULAU" ∧
    "PULAU".data.all isUpperC = true ∧ 4 ≤ "PULAU".data.length ∧
    assocLookup "PULAU" CORP_TOKEN_MAP = none ∧
    assocLookup "PULAU" TITLE_MAP = none ∧
    ROMAN_SET.contains (String.mk (lowerL "PULAU".data)) = false ∧
    format_pemohon_display "PULAU" = .error () ∧
    is_blankish_text "Lot 123" = false ∧
    format_lot_display "Lot 123" = .error () :=
  ⟨by decide, by decide, by decide, by decide, by decide, by decide, by decide,
   C10_amended_name_errors.1 "PULAU" "PULAU".data (by decide) (by decide) (by decide)
     (by decide) (by decide) (by decide) (by decide),
   by decide,
   C10_amended_name_errors.2 "Lot 123" (by decide)⟩
